import Mathlib

/-!
# Verification of the bun-doc-mcp documentation-serving proxy

Shallow embedding of the indexing/retrieval core of the `bun-doc-mcp`
repository, with theorems settling the specification claims.

The embedding covers four generations of the server found in the sources:
* `IndexTs`      — `src/index.ts` (nav-map based resolver and three-tier search);
* `WalkServer`   — `src/unnamed/part_001` (filesystem-walking server with
                   `normalizePath` and the low-level `grep_docs` tool handler);
* `Unified`      — `src/unnamed/part_002` (final chunk) and `src/unnamed/part_003`
                   (resource-index based server: `buildResourceIndex`,
                   index-driven `grepDocuments`, `normalizeSlug`, `readDocument`);
* `Locator`      — `src/unnamed/part_002` (`listVersionCandidates`,
                   `downloadDocsWithFallback`).

I/O collaborators (filesystem, regex engine, directory enumeration) are
passed in as explicit parameters: the filesystem is a partial map from
path to content (`none` = missing or unreadable), the compiled regex is a
function counting the non-overlapping matches in a string, and directory
crawls (`find`/`ls` output) are the lists those commands produced.
-/

namespace BunDoc

/-- JavaScript string truthiness: `a || b` on strings keeps `a` when nonempty. -/
def jsOr (a b : String) : String :=
  if a ≠ "" then a else b

/-- JavaScript truthiness of an optional string field (`undefined` and `""` are falsy). -/
def optTruthy : Option String → Bool
  | none => false
  | some s => s ≠ ""

/-- JavaScript `split(sep)` for a one-character separator, over character lists. -/
def splitCharAux (c : Char) : List Char → List Char → List (List Char)
  | [], acc => [acc.reverse]
  | x :: xs, acc =>
    if x = c then acc.reverse :: splitCharAux c xs []
    else splitCharAux c xs (x :: acc)

/-- JavaScript `s.split(c)` (always returns at least one segment). -/
def splitChar (c : Char) (s : String) : List String :=
  (splitCharAux c s.data []).map List.asString

/-- Remove the first occurrence of `pat` from `l`
(JavaScript `l.replace(pat, '')` for a plain-string pattern). -/
def replaceFirst (pat : List Char) : List Char → List Char
  | [] => []
  | x :: xs =>
    if pat.isPrefixOf (x :: xs) then (x :: xs).drop pat.length
    else x :: replaceFirst pat xs

/-- String wrapper for `replaceFirst`. -/
def replaceFirstStr (s pat : String) : String :=
  (replaceFirst pat.data s.data).asString

/-- JavaScript `s.includes(pat)`: does `pat` occur contiguously inside `l`? -/
def containsSeq (pat : List Char) : List Char → Bool
  | [] => pat.isEmpty
  | x :: xs => pat.isPrefixOf (x :: xs) || containsSeq pat xs

/-- String wrapper for `containsSeq`. -/
def containsSeqStr (s pat : String) : Bool :=
  containsSeq pat.data s.data

/-- JavaScript `s.startsWith(p)`. -/
def startsWithStr (s p : String) : Bool :=
  p.data.isPrefixOf s.data

/-- JavaScript `s.endsWith(p)`. -/
def endsWithStr (s p : String) : Bool :=
  p.data.reverse.isPrefixOf s.data.reverse

/-- JavaScript `s.substring(0, n)`. -/
def takeStr (n : Nat) (s : String) : String :=
  (s.data.take n).asString

/-- JavaScript `s.slice(0, -n)` for dropping a fixed-length suffix. -/
def dropRightStr (n : Nat) (s : String) : String :=
  (s.data.reverse.drop n).reverse.asString

/-- `Array.from(new Set(l))`: deduplicate keeping the first occurrence of each element. -/
def dedupFirstAux (seen : List Char) : List Char → List Char
  | [] => []
  | c :: rest =>
    if seen.contains c then dedupFirstAux seen rest
    else c :: dedupFirstAux (c :: seen) rest

/-- JavaScript `name.charAt(0).toUpperCase() + name.slice(1)`. -/
def capitalizeStr (s : String) : String :=
  match s.data with
  | [] => ""
  | c :: rest => (c.toUpper :: rest).asString

/-- JavaScript `String.prototype.trim` over character lists. -/
def trimChars (l : List Char) : List Char :=
  ((l.dropWhile Char.isWhitespace).reverse.dropWhile Char.isWhitespace).reverse

/-- JavaScript `s.trim()`. -/
def jsTrim (s : String) : String :=
  (trimChars s.data).asString

/-! ## JavaScript `Map` as an insertion-ordered association list

`Map.set` replaces the value in place when the key is present (keeping the
key's original position) and appends otherwise; `Map.get` returns the value
of the unique entry with the key. -/

/-- JavaScript `Map.prototype.set`. -/
def mapSet {α : Type} : List (String × α) → String → α → List (String × α)
  | [], k, v => [(k, v)]
  | (k', v') :: rest, k, v =>
    if k' = k then (k', v) :: rest else (k', v') :: mapSet rest k v

/-- JavaScript `Map.prototype.get`. -/
def mapGet {α : Type} : List (String × α) → String → Option α
  | [], _ => none
  | (k', v') :: rest, k => if k' = k then some v' else mapGet rest k

/-! ## Data model (type definitions shared by the server generations) -/

/-- `PageInfo` from the sources: per-slug record built by `parseNavigation`.
`disabled` is the truthiness of the optional boolean; `href` keeps the raw
optional string (`some ""` is falsy in the JavaScript checks). -/
structure PageInfo where
  title : String
  description : String
  divider : String
  disabled : Bool
  href : Option String
deriving DecidableEq

/-- `Resource` from the sources: the wire shape of one listing entry. -/
structure Resource where
  uri : String
  name : String
  description : String
  mimeType : String
deriving DecidableEq

/-- `IndexedResource` from `part_002`/`part_003`: `Resource` plus the optional
backing file path and directory flag. -/
structure IndexedResource where
  uri : String
  name : String
  description : String
  mimeType : String
  filePath : Option String
  isDirectory : Bool
deriving DecidableEq

/-- `SearchResult` from the sources. -/
structure SearchResult where
  uri : String
  matchCount : Nat
deriving DecidableEq

/-- Parsed contents of a `guides/*/index.json` metadata file. -/
structure JsonMeta where
  name : Option String
  description : Option String
deriving DecidableEq

/-- `description` composition used for nav pages in `getAllPagesResources`
(`src/index.ts`) and `buildResourceIndex` (`part_002`/`part_003`):
`divider && description ? divider + " / " + description : description || divider || ''`. -/
def composeDescription (info : PageInfo) : String :=
  if info.divider ≠ "" ∧ info.description ≠ "" then
    info.divider ++ " / " ++ info.description
  else jsOr info.description (jsOr info.divider "")

/-- `parseFrontmatter` from the sources: a leading `---`-delimited block of
`key: value` lines (key is `\w+`, the value after `:` and optional whitespace
must be nonempty); later duplicate keys overwrite earlier ones. Returns the
`name` and `description` entries. -/
def fmLine (line : String) : Option (String × String) :=
  let cs := line.data
  let key := cs.takeWhile (fun c => c.isAlphanum || c = '_')
  let rest := cs.dropWhile (fun c => c.isAlphanum || c = '_')
  if key.isEmpty then none
  else
    match rest with
    | ':' :: r =>
      let v := r.dropWhile Char.isWhitespace
      if v.isEmpty then none else some (key.asString, v.asString)
    | _ => none

/-- The `name`/`description` pair extracted from front matter. -/
def parseFrontmatter (content : String) : Option String × Option String :=
  match splitChar '\n' content with
  | [] => (none, none)
  | first :: rest =>
    if first = "---" then
      let body := rest.takeWhile (fun l => l ≠ "---")
      let entries := body.filterMap fmLine
      ((entries.reverse.find? (fun e => e.1 == "name")).map Prod.snd,
       (entries.reverse.find? (fun e => e.1 == "description")).map Prod.snd)
    else (none, none)

/-- JavaScript `content.split('\n')[0] || dflt`. -/
def firstLineOr (content dflt : String) : String :=
  jsOr ((splitChar '\n' content).headD "") dflt

/-- JavaScript `path.split('/').pop()?.replace('.md', '') || ''`:
the base name of a path with its first `.md` occurrence removed. -/
def baseNameNoMd (path : String) : String :=
  jsOr (replaceFirstStr ((splitChar '/' path).getLastD "") ".md") ""

/-- `countMatches` as it appears identically in `src/index.ts`, `part_002`
and `part_003`: read the file and count the matches of the (global) regex;
any read or decode failure is swallowed and reported as zero. The compiled
regex is embedded as the function `count` giving the number of
non-overlapping matches in a string. -/
def countMatches (fs : String → Option String) (count : String → Nat)
    (filePath : String) : Nat :=
  match fs filePath with
  | some content => count content
  | none => 0

/-- `filePath.replace(DOCS_DIR + '/', '').replace('.md', '')` as used by the
crawl passes and the legacy search to derive a slug from a file path. -/
def relSlug (docsDir path : String) : String :=
  replaceFirstStr (replaceFirstStr path (docsDir ++ "/")) ".md"

/-- The JavaScript `results.sort((a, b) => b.matchCount - a.matchCount)`
shared by every `grepDocuments` generation: a stable sort putting larger
match counts first (ECMAScript `Array.prototype.sort` is stable, so it is
the unique stable sort for this comparator). -/
def sortByCountDesc (l : List SearchResult) : List SearchResult :=
  l.insertionSort (fun a b => b.matchCount ≤ a.matchCount)

namespace Unified

/-! ### `part_002` (final chunk) / `part_003`: the resource-index server

`buildResourceIndex` fills a JavaScript `Map` in three sequential passes
(nav pages from the manifest, the guides crawl, the ecosystem crawl).
We embed the environment the passes observe: the `pageMap` produced by
`parseNavigation`, a filesystem, and the crawl command outputs (paired
with the file contents the pass subsequently reads). -/

/-- The environment `buildResourceIndex` runs in. `fs` maps a path to its
content when the path exists and is readable. `guidesFiles` is the output of
`find guides -type f -name "*.md"` paired with each file's content;
`guidesSubdirs` is the output of `find guides -mindepth 1 -type d` paired
with the parsed `index.json` when present and readable; `ecosystemFiles`
is the same for `find ecosystem -type f -name "*.md"`. -/
structure BuildEnv where
  docsDir : String
  pageMap : List (String × PageInfo)
  guidesDirExists : Bool
  guidesFiles : List (String × String)
  guidesSubdirs : List (String × Option JsonMeta)
  ecosystemDirExists : Bool
  ecosystemFiles : List (String × String)
  fs : String → Option String

/-- The two-step backing-file resolution of the nav pass: try `{slug}.md`,
then `{slug}/index.md`, else report the page as missing. -/
def resolvePageFile (docsDir : String) (fs : String → Option String) (slug : String) :
    Option String :=
  let filePath := docsDir ++ "/" ++ slug ++ ".md"
  if (fs filePath).isSome then some filePath
  else
    let indexPath := docsDir ++ "/" ++ slug ++ "/index.md"
    if (fs indexPath).isSome then some indexPath else none

/-- The `RESOURCE_INDEX.set` calls made by the nav-page pass of
`buildResourceIndex`, in order: skip disabled and external pages, skip pages
whose backing file is missing, otherwise insert under `buncument://{slug}`. -/
def navInsertions (env : BuildEnv) : List (String × IndexedResource) :=
  env.pageMap.filterMap fun p =>
    let slug := p.1
    let info := p.2
    if info.disabled || optTruthy info.href then none
    else
      match resolvePageFile env.docsDir env.fs slug with
      | none => none
      | some fp =>
        some ("buncument://" ++ slug,
          { uri := "buncument://" ++ slug
            name := info.title
            description := composeDescription info
            mimeType := "text/markdown"
            filePath := some fp
            isDirectory := false })

/-- The directory-placeholder entry for the guides subtree root. -/
def guidesRootResource : IndexedResource :=
  { uri := "buncument://guides"
    name := "Guides"
    description :=
      "A collection of code samples and walkthroughs for performing common tasks with Bun."
    mimeType := "application/json"
    filePath := none
    isDirectory := true }

/-- The `RESOURCE_INDEX.set` calls made for the markdown files found by
the guides crawl. -/
def guidesFileInsertions (env : BuildEnv) : List (String × IndexedResource) :=
  env.guidesFiles.map fun fc =>
    let filePath := fc.1
    let content := fc.2
    let rel := relSlug env.docsDir filePath
    let fm := parseFrontmatter content
    let filename := baseNameNoMd filePath
    let firstLine := (splitChar '\n' content).headD ""
    ("buncument://" ++ rel,
      { uri := "buncument://" ++ rel
        name := jsOr (fm.1.getD "") filename
        description := jsOr (fm.2.getD "") (jsOr (takeStr 100 firstLine) "")
        mimeType := "text/markdown"
        filePath := some filePath
        isDirectory := false })

/-- The `RESOURCE_INDEX.set` calls made for the subdirectories found by
the guides crawl (directory resources described by `index.json` when
available). -/
def guidesSubdirInsertions (env : BuildEnv) : List (String × IndexedResource) :=
  env.guidesSubdirs.map fun dm =>
    let dirPath := dm.1
    let rel := replaceFirstStr dirPath (env.docsDir ++ "/")
    let base := (splitChar '/' dirPath).getLastD ""
    let dirName := match dm.2 with
      | some meta => jsOr (meta.name.getD "") base
      | none => base
    let dirDescription := match dm.2 with
      | some meta => jsOr (meta.description.getD "") "Directory"
      | none => "Directory"
    ("buncument://" ++ rel,
      { uri := "buncument://" ++ rel
        name := dirName
        description := dirDescription
        mimeType := "application/json"
        filePath := none
        isDirectory := true })

/-- The `RESOURCE_INDEX.set` calls made by the ecosystem pass. -/
def ecosystemInsertions (env : BuildEnv) : List (String × IndexedResource) :=
  env.ecosystemFiles.map fun fc =>
    let filePath := fc.1
    let content := fc.2
    let rel := relSlug env.docsDir filePath
    let filename := baseNameNoMd filePath
    let firstLine := firstLineOr content filename
    ("buncument://" ++ rel,
      { uri := "buncument://" ++ rel
        name := capitalizeStr filename
        description := takeStr 100 firstLine
        mimeType := "text/markdown"
        filePath := some filePath
        isDirectory := false })

/-- All `RESOURCE_INDEX.set` calls of `buildResourceIndex`, in program order:
nav pages first, then (when the guides directory exists) the guides root
placeholder, the guides files and the guides subdirectories, then (when the
ecosystem directory exists) the ecosystem files. -/
def indexInsertions (env : BuildEnv) : List (String × IndexedResource) :=
  navInsertions env ++
    (if env.guidesDirExists then
      ("buncument://guides", guidesRootResource) ::
        (guidesFileInsertions env ++ guidesSubdirInsertions env)
    else []) ++
    (if env.ecosystemDirExists then ecosystemInsertions env else [])

/-- `buildResourceIndex` from `part_002`/`part_003`: the global `Map` after
all `set` calls have run. -/
def buildResourceIndex (env : BuildEnv) : List (String × IndexedResource) :=
  (indexInsertions env).foldl (fun m kv => mapSet m kv.1 kv.2) []

/-! ### `part_002`/`part_003`: the index-driven search engine

The JavaScript regex engine is a collaborator: `compile pattern flags`
returns `none` when `new RegExp(pattern, flags)` throws, and otherwise the
function counting all non-overlapping matches in a string (what
`content.match(regex).length` computes for a global regex). -/

/-- The flag normalization of `grepDocuments` in `part_002`: keep only
recognized flag characters, deduplicate keeping first occurrence, force `g`,
and fall back to `"g"` when empty. -/
def computeFlags (flags : String) : String :=
  let flagList :=
    if flags ≠ "" then
      dedupFirstAux [] (flags.data.filter (fun c => (['g', 'i', 'm', 'u', 'y', 's'] : List Char).contains c))
    else []
  let flagList := if flagList.contains 'g' then flagList else flagList ++ ['g']
  let finalFlags := flagList.asString
  if finalFlags = "" then "g" else finalFlags

/-- The candidate scan of `grepDocuments` in `part_002`/`part_003`: walk the
index in insertion order, skip directories and entries without a file path,
apply the path-prefix filter on the scheme-stripped uri, count matches, keep
only documents with a positive count. -/
def collectResults (fs : String → Option String) (count : String → Nat)
    (index : List (String × IndexedResource)) (searchPath : String) :
    List SearchResult :=
  index.filterMap fun p =>
    match p.2.filePath with
    | some fp =>
      if p.2.isDirectory ∨ fp = "" then none
      else if searchPath ≠ "" ∧ ¬ startsWithStr (replaceFirstStr p.1 "buncument://") searchPath then
        none
      else
        let mc := countMatches fs count fp
        if 0 < mc then some { uri := p.2.uri, matchCount := mc } else none
    | none => none

/-- `grepDocuments` from `part_002` (the `part_003` version is the same with
`flags` fixed to `"g"`): compile the pattern, scan the index, sort
descending by match count and truncate to `limit`. -/
def grepDocuments (compile : String → String → Option (String → Nat))
    (fs : String → Option String) (index : List (String × IndexedResource))
    (pattern searchPath : String) (limit : Nat) (flags : String) :
    Except String (List SearchResult) :=
  match compile pattern (computeFlags flags) with
  | none => .error ("Invalid regular expression: " ++ pattern)
  | some count =>
    .ok ((sortByCountDesc (collectResults fs count index searchPath)).take limit)

/-- The successive reductions `normalizeSlug` applies to its input: trim
(done once up front in the source), strip leading/trailing slash runs
(`replace(/^\/+/, '').replace(/\/+$/, '')`), strip one trailing `.md`. -/
def slugCore (input : String) : String :=
  let value := jsTrim input
  let value := ((value.data.dropWhile (fun c => c = '/')).reverse.dropWhile
    (fun c => c = '/')).reverse.asString
  if endsWithStr value ".md" then dropRightStr 3 value else value

/-- `normalizeSlug` from `part_002`: trim, reject empty input and
scheme-qualified input, strip leading and trailing slashes and one trailing
`.md` (the `slugCore` reduction), reject when nothing remains, and prefix
the scheme. -/
def normalizeSlug (input : String) : Except String String :=
  let value := jsTrim input
  if value = "" then .error "Document slug is required"
  else if containsSeqStr value "://" then
    .error "Use documentation slugs like runtime/bun-apis"
  else
    let value := slugCore input
    if value = "" then .error "Document slug is required"
    else .ok ("buncument://" ++ value)

/-- `readDocument` from `part_002`: normalize the slug, look it up in the
resource index, reject non-documents, then read the backing file (a read
failure rejects the call). -/
def readDocument (index : List (String × IndexedResource))
    (fs : String → Option String) (input : String) : Except String String :=
  match normalizeSlug input with
  | .error e => .error e
  | .ok key =>
    match mapGet index key with
    | none => .error ("Document not found for slug: " ++ input)
    | some resource =>
      match resource.filePath with
      | some fp =>
        if fp = "" ∨ resource.isDirectory then
          .error ("Requested slug is not a document: " ++ input)
        else
          match fs fp with
          | some content => .ok content
          | none => .error ("Failed to read file: " ++ fp)
      | none => .error ("Requested slug is not a document: " ++ input)

end Unified

namespace IndexTs

/-! ### `src/index.ts`: the nav-map server

This generation has no resource index: listing walks `PAGE_MAP` directly,
reading dispatches on the path shape, and search re-derives file paths from
slugs. The environment carries the `PAGE_MAP`, the filesystem (`pathExists`
for `existsSync`, `fs` for reads: `none` = unreadable), and the outputs of
the shell crawls (`getGuidesSubdirs`, `ls *.md`, `getEcosystemFiles`). -/

/-- The environment of the `src/index.ts` handlers. -/
structure ServeEnv where
  docsDir : String
  pageMap : List (String × PageInfo)
  pathExists : String → Bool
  fs : String → Option String
  guidesDirExists : Bool
  guidesSubdirs : List String
  guidesIndexJson : String → Option JsonMeta
  lsMd : String → List String
  ecosystemDirExists : Bool
  ecosystemFiles : List String

/-- The ecosystem loop of `getAllPagesResources`: read each ecosystem file
and describe it by its first line; the surrounding `try` means a failed read
aborts the remaining ecosystem entries (keeping what was already pushed). -/
def ecoListResources (env : ServeEnv) : List String → List Resource
  | [] => []
  | f :: rest =>
    match env.fs (env.docsDir ++ "/ecosystem/" ++ f ++ ".md") with
    | none => []
    | some content =>
      let firstLine := jsOr ((splitChar '\n' content).headD "") f
      { uri := "buncument://ecosystem/" ++ f
        name := capitalizeStr f
        description := takeStr 100 firstLine
        mimeType := "text/markdown" } :: ecoListResources env rest

/-- `getAllPagesResources` from `src/index.ts`: nav pages (skipping only
`disabled` ones), the unconditional guides directory entry, then the
ecosystem files. -/
def getAllPagesResources (env : ServeEnv) : List Resource :=
  (env.pageMap.filterMap fun p =>
    if p.2.disabled then none
    else some
      { uri := "buncument://" ++ p.1
        name := p.2.title
        description := composeDescription p.2
        mimeType := "text/markdown" }) ++
  [{ uri := "buncument://guides"
     name := "Guides"
     description :=
       "A collection of code samples and walkthroughs for performing common tasks with Bun."
     mimeType := "application/json" }] ++
  ecoListResources env (if env.ecosystemDirExists then env.ecosystemFiles else [])

/-- The handler's polymorphic response: a directory listing (serialized as
`application/json`), a document (`text/markdown` content), or a plain-text
status payload (`text/plain`). -/
inductive ReadResult where
  | listing (path : String) (entries : List Resource)
  | document (mimeType text : String)
  | plain (text : String)
deriving DecidableEq

/-- The `PAGE_MAP` tail of `handleResourceRequest` (`src/index.ts` lines
632–710): page lookup, the disabled and external-link payloads, then the
single-step `{path}.md` read guarded by `try`/`catch`. -/
def handlePagePath (env : ServeEnv) (path : String) : ReadResult :=
  match mapGet env.pageMap path with
  | none => .plain ("[Page not found: " ++ path ++ "]")
  | some info =>
    if info.disabled then .plain ("[Page disabled: " ++ info.title ++ "]")
    else if optTruthy info.href then
      .plain ("[External link: " ++ info.href.getD "" ++ "]")
    else
      let filePath := env.docsDir ++ "/" ++ path ++ ".md"
      if ¬ env.pathExists filePath then
        .plain ("[File not found: " ++ path ++ ".md]")
      else
        match env.fs filePath with
        | some content => .document "text/markdown" content
        | none => .plain "[File error]"

/-- The `guides/...` branches of `handleResourceRequest`: a two-segment path
lists the subdirectory's markdown files (front matter supplying names and
descriptions), a three-segment path serves the file; other shapes fall
through to the `PAGE_MAP` tail. Reads in these branches are not guarded by
`try`, so a failed read rejects the request (`Except.error`). -/
def guidesSubdirEntries (env : ServeEnv) (subdir subdirPath : String) :
    List String → Except String (List Resource)
  | [] => .ok []
  | filePath :: rest =>
    match env.fs filePath with
    | none => .error ("Failed to read file: " ++ filePath)
    | some content =>
      let filename := replaceFirstStr (replaceFirstStr filePath (subdirPath ++ "/")) ".md"
      let fm := parseFrontmatter content
      match guidesSubdirEntries env subdir subdirPath rest with
      | .error e => .error e
      | .ok entries =>
        .ok ({ uri := "buncument://guides/" ++ subdir ++ "/" ++ filename
               name := jsOr (fm.1.getD "") filename
               description := jsOr (fm.2.getD "") ""
               mimeType := "text/markdown" } :: entries)

/-- The `guides/...` branch dispatch (see `handleGuidesPath` callers). -/
def handleGuidesPath (env : ServeEnv) (path : String) :
    Option (Except String ReadResult) :=
  let parts := splitChar '/' path
  if parts.length = 2 ∧ parts.getD 1 "" ≠ "" then
    let subdir := parts.getD 1 ""
    let subdirPath := env.docsDir ++ "/guides/" ++ subdir
    if ¬ env.pathExists subdirPath then
      some (.ok (.plain ("[Directory not found: " ++ path ++ "]")))
    else
      match guidesSubdirEntries env subdir subdirPath (env.lsMd subdirPath) with
      | .error e => some (.error e)
      | .ok entries => some (.ok (.listing path entries))
  else if parts.length = 3 then
    let filePath := env.docsDir ++ "/" ++ path ++ ".md"
    if ¬ env.pathExists filePath then
      some (.ok (.plain ("[File not found: " ++ path ++ ".md]")))
    else
      match env.fs filePath with
      | some content => some (.ok (.document "text/markdown" content))
      | none => some (.error ("Failed to read file: " ++ filePath))
  else none

/-- `handleResourceRequest` from `src/index.ts`: strip one leading slash,
then dispatch on the path: root listing, the guides directory listing
(subdirectories carrying an `index.json`), the guides branches, the
ecosystem file read, and finally the `PAGE_MAP` tail. -/
def handleResourceRequest (env : ServeEnv) (rawPath : String) :
    Except String ReadResult :=
  let path := if startsWithStr rawPath "/" then (rawPath.data.drop 1).asString else rawPath
  if path = "" then .ok (.listing "" (getAllPagesResources env))
  else if path = "guides" then
    .ok (.listing "guides" (env.guidesSubdirs.filterMap fun subdir =>
      match env.guidesIndexJson (env.docsDir ++ "/guides/" ++ subdir ++ "/index.json") with
      | none => none
      | some meta =>
        some { uri := "buncument://guides/" ++ subdir
               name := jsOr (meta.name.getD "") subdir
               description := jsOr (meta.description.getD "") ""
               mimeType := "application/json" }))
  else if startsWithStr path "guides/" then
    match handleGuidesPath env path with
    | some r => r
    | none => .ok (handlePagePath env path)
  else if startsWithStr path "ecosystem/" then
    let filePath := env.docsDir ++ "/" ++ path ++ ".md"
    if ¬ env.pathExists filePath then
      .ok (.plain ("[File not found: " ++ path ++ ".md]"))
    else
      match env.fs filePath with
      | some content => .ok (.document "text/markdown" content)
      | none => .error ("Failed to read file: " ++ filePath)
  else .ok (handlePagePath env path)

/-- The nav tier of `grepDocuments` in `src/index.ts` (lines 317–341):
filter the slugs by the search path, skip disabled and external pages, map
each slug only to `{slug}.md` (no `index.md` fallback), skip missing files,
and keep positive match counts. -/
def grepNavResults (env : ServeEnv) (count : String → Nat) (searchPath : String) :
    List SearchResult :=
  let slugs := env.pageMap.map Prod.fst
  let filtered :=
    if searchPath ≠ "" then slugs.filter (fun s => startsWithStr s searchPath) else slugs
  filtered.filterMap fun slug =>
    match mapGet env.pageMap slug with
    | none => none
    | some info =>
      if info.disabled || optTruthy info.href then none
      else
        let filePath := env.docsDir ++ "/" ++ slug ++ ".md"
        if ¬ env.pathExists filePath then none
        else
          let mc := countMatches env.fs count filePath
          if 0 < mc then some { uri := "buncument://" ++ slug, matchCount := mc }
          else none

/-- The guides tier of `grepDocuments` in `src/index.ts`: every markdown
file of every guides subdirectory. -/
def grepGuidesResults (env : ServeEnv) (count : String → Nat) : List SearchResult :=
  if ¬ env.guidesDirExists then []
  else
    env.guidesSubdirs.flatMap fun subdir =>
      (env.lsMd (env.docsDir ++ "/guides/" ++ subdir)).filterMap fun filePath =>
        let mc := countMatches env.fs count filePath
        if 0 < mc then some { uri := "buncument://" ++ relSlug env.docsDir filePath, matchCount := mc }
        else none

/-- The ecosystem tier of `grepDocuments` in `src/index.ts`. -/
def grepEcoResults (env : ServeEnv) (count : String → Nat) : List SearchResult :=
  if ¬ env.ecosystemDirExists then []
  else
    (env.lsMd (env.docsDir ++ "/ecosystem")).filterMap fun filePath =>
      let mc := countMatches env.fs count filePath
      if 0 < mc then some { uri := "buncument://" ++ relSlug env.docsDir filePath, matchCount := mc }
      else none

/-- `grepDocuments` from `src/index.ts`: compile (always with flag `g`),
run the three tiers (guides/ecosystem only when the search path allows),
sort descending by match count and truncate. -/
def grepDocuments (env : ServeEnv) (compile : String → Option (String → Nat))
    (pattern searchPath : String) (limit : Nat) :
    Except String (List SearchResult) :=
  match compile pattern with
  | none => .error ("Invalid regular expression: " ++ pattern)
  | some count =>
    let navR := grepNavResults env count searchPath
    let guidesR :=
      if searchPath = "" ∨ startsWithStr searchPath "guides" then
        grepGuidesResults env count
      else []
    let ecoR :=
      if searchPath = "" ∨ startsWithStr searchPath "ecosystem" then
        grepEcoResults env count
      else []
    .ok ((sortByCountDesc (navR ++ guidesR ++ ecoR)).take limit)

end IndexTs

namespace WalkServer

/-! ### `part_001`: the filesystem-walking server

This generation resolves queries against the documentation tree directly.
The directory traversal is I/O, so the environment supplies its outcome:
`pathKind p` is `none` when `p` does not exist, `some true` for a
directory and `some false` for a file, and `walkFiles dir rel` is the list
of `(entryRelativePath, entryAbsolutePath)` pairs of text files that
`searchDirectory dir rel` visits, in visit order. -/

/-- `normalizePath` from `part_001`: strip leading and trailing slashes
(`/^\/+|\/+$/g`), then collapse runs of slashes (`/\/+/g` → `/`). -/
def collapseSlashes : List Char → List Char
  | [] => []
  | [c] => [c]
  | a :: b :: rest =>
    if a = '/' ∧ b = '/' then collapseSlashes (b :: rest)
    else a :: collapseSlashes (b :: rest)

/-- Strip the leading run of slashes. -/
def stripLead (l : List Char) : List Char :=
  l.dropWhile (fun c => c = '/')

/-- Strip the trailing run of slashes. -/
def stripTrail (l : List Char) : List Char :=
  (l.reverse.dropWhile (fun c => c = '/')).reverse

/-- `normalizePath` over character lists. -/
def normChars (l : List Char) : List Char :=
  collapseSlashes (stripTrail (stripLead l))

/-- `normalizePath` from `part_001` (`if (!path) return ''` then the two
regex replacements). -/
def normalizePath (s : String) : String :=
  if s = "" then "" else (normChars s.data).asString

/-- `isTextFile` from `part_001`. -/
def isTextFile (fileName : String) : Bool :=
  let lower := (fileName.data.map Char.toLower).asString
  ([".md", ".txt", ".js", ".ts", ".tsx"] : List String).any fun ext =>
    endsWithStr lower ext

/-- `countMatches` from `part_001`: like the shared `countMatches` but with
the 100 KiB size guard (`if (file.size > 100 * 1024) return 0`). -/
def countMatchesGuarded (fs : String → Option String) (fileSize : String → Nat)
    (count : String → Nat) (filePath : String) : Nat :=
  if 100 * 1024 < fileSize filePath then 0
  else countMatches fs count filePath

/-- The environment of the `part_001` search. -/
structure WalkEnv where
  docsDir : String
  fs : String → Option String
  fileSize : String → Nat
  pathKind : String → Option Bool
  walkFiles : String → String → List (String × String)

/-- `grepDocuments` from `part_001`: compile the pattern, normalize the
search path, return no results when the target is missing, otherwise scan
the walked text files (or the single file) and sort/truncate. -/
def grepDocuments (env : WalkEnv) (compile : String → Option (String → Nat))
    (pattern searchPath : String) (limit : Nat) :
    Except String (List SearchResult) :=
  match compile pattern with
  | none => .error ("Invalid regular expression: " ++ pattern)
  | some count =>
    let nsp := normalizePath searchPath
    let fullPath := if nsp ≠ "" then env.docsDir ++ "/" ++ nsp else env.docsDir
    match env.pathKind fullPath with
    | none => .ok []
    | some true =>
      let results := (env.walkFiles fullPath nsp).filterMap fun e =>
        let mc := countMatchesGuarded env.fs env.fileSize count e.2
        if 0 < mc then some { uri := "bun-doc://" ++ e.1, matchCount := mc }
        else none
      .ok ((sortByCountDesc results).take limit)
    | some false =>
      let results :=
        if isTextFile fullPath then
          let mc := countMatchesGuarded env.fs env.fileSize count fullPath
          if 0 < mc then [{ uri := "bun-doc://" ++ nsp, matchCount := mc }]
          else []
        else []
      .ok ((sortByCountDesc results).take limit)

/-- The `CallToolRequestSchema` handler from `part_001` (lines 462–494):
reject unknown tools, reject a missing pattern with the JavaScript falsy
check `if (!pattern)` (which also rejects the empty string), then run
`grepDocuments`, wrapping any thrown error as a `Grep error`. Errors are
`Except.error`: they reject the protocol call rather than producing a
payload. -/
def callToolHandler (env : WalkEnv) (compile : String → Option (String → Nat))
    (toolName : String) (pattern path : Option String) (limit : Option Nat) :
    Except String (List SearchResult) :=
  if toolName ≠ "grep_docs" then .error ("Unknown tool: " ++ toolName)
  else if pattern = none ∨ pattern = some "" then
    .error "Pattern parameter is required"
  else
    match grepDocuments env compile (pattern.getD "") (path.getD "") (limit.getD 30) with
    | .ok results => .ok results
    | .error e => .error ("Grep error: " ++ e)

end WalkServer

namespace Locator

/-! ### `part_002`: the corpus locator's version fallback

The shell download is the collaborator `fetch : String → Except E Unit`
(`downloadDocsFromGitHub` for one candidate version). -/

/-- `listVersionCandidates` from `part_002`: take the part before `+`
(falling back to the whole string when that part is empty), then add the
part before the first `-` when nonempty. The `Set` preserves first-insertion
order; the two candidates are always distinct. -/
def listVersionCandidates (version : String) : List String :=
  let first := (splitChar '+' version).headD ""
  let base := jsOr first version
  if base = "" then []
  else
    match base.data.findIdx? (fun c => c = '-') with
    | none => [base]
    | some i =>
      let release := (base.data.take i).asString
      if release = "" then [base] else [base, release]

/-- The loop body of `downloadDocsWithFallback`, instrumented with the list
of candidates actually passed to `fetch` (first component). The second
argument carries `lastError`. -/
def fallbackGo {E : Type} (fetch : String → Except E Unit) :
    List String → Option E → List String × Except E Unit
  | [], none => ([], .ok ())
  | [], some e => ([], .error e)
  | v :: rest, _ =>
    match fetch v with
    | .ok _ => ([v], .ok ())
    | .error e =>
      let r := fallbackGo fetch rest (some e)
      (v :: r.1, r.2)

/-- `downloadDocsWithFallback` from `part_002`: try each candidate in order,
return on the first success, surface the last failure when all fail (and
succeed vacuously on an empty candidate list). -/
def downloadDocsWithFallback {E : Type} (fetch : String → Except E Unit)
    (versions : List String) : Except E Unit :=
  (fallbackGo fetch versions none).2

/-- The candidates `downloadDocsWithFallback` actually attempts. -/
def attemptedVersions {E : Type} (fetch : String → Except E Unit)
    (versions : List String) : List String :=
  (fallbackGo fetch versions none).1

end Locator

/-! ## Concrete test environments

Small closed instances used by the counterexamples and witnesses below.
The regex collaborator `countOcc pat` counts the non-overlapping
occurrences of the literal string `pat` — the match-count semantics of a
global regex whose pattern is a plain literal. -/

/-- Number of non-overlapping occurrences of the literal `pat` in the list
(scanning left to right, as a global regex does for a literal pattern).
`skip` is the number of positions still covered by the last match. -/
def countOccAux (pat : List Char) : Nat → List Char → Nat
  | _, [] => 0
  | n + 1, _ :: rest => countOccAux pat n rest
  | 0, c :: rest =>
    if pat ≠ [] ∧ pat.isPrefixOf (c :: rest) then
      countOccAux pat (pat.length - 1) rest + 1
    else countOccAux pat 0 rest

/-- String wrapper for `countOccAux`. -/
def countOcc (pat s : String) : Nat :=
  countOccAux pat.data 0 s.data

/-- A compile collaborator for tests: every pattern compiles, to a counter
of literal occurrences of the pattern. -/
def compileLit : String → String → Option (String → Nat) :=
  fun pattern _flags => some (countOcc pattern)

/-- A compile collaborator without flags (for the `src/index.ts` and
`part_001` search generations, which always compile with flag `g`). -/
def compileLit1 : String → Option (String → Nat) :=
  fun pattern => some (countOcc pattern)

/-- C1 counterexample environment: the manifest has a page whose slug
collides with a file found by the guides crawl. -/
def envC1 : Unified.BuildEnv :=
  { docsDir := "docs"
    pageMap := [("guides/foo",
      { title := "Nav Foo", description := "", divider := "", disabled := false, href := none })]
    guidesDirExists := true
    guidesFiles := [("docs/guides/foo.md", "hello")]
    guidesSubdirs := []
    ecosystemDirExists := false
    ecosystemFiles := []
    fs := fun p => if p = "docs/guides/foo.md" then some "hello" else none }

/-- The manifest-derived resource `envC1`'s nav pass inserts. -/
def navResC1 : IndexedResource :=
  { uri := "buncument://guides/foo", name := "Nav Foo", description := ""
    mimeType := "text/markdown", filePath := some "docs/guides/foo.md", isDirectory := false }

/-- The crawl-derived resource `envC1`'s guides pass inserts for the same key. -/
def crawlResC1 : IndexedResource :=
  { uri := "buncument://guides/foo", name := "foo", description := "hello"
    mimeType := "text/markdown", filePath := some "docs/guides/foo.md", isDirectory := false }

/-- C2 environment: a manifest with one disabled page and one external
(`href`) page, no auxiliary subtrees. -/
def envC2 : IndexTs.ServeEnv :=
  { docsDir := "docs"
    pageMap :=
      [("old-api",
        { title := "Old API", description := "", divider := "", disabled := false,
          href := some "https://example.com" }),
       ("gone",
        { title := "Gone", description := "", divider := "", disabled := true, href := none })]
    pathExists := fun _ => false
    fs := fun _ => none
    guidesDirExists := false
    guidesSubdirs := []
    guidesIndexJson := fun _ => none
    lsMd := fun _ => []
    ecosystemDirExists := false
    ecosystemFiles := []

    }

/-- C3/C4 environment: a two-document index. -/
def idxC3 : List (String × IndexedResource) :=
  [("buncument://a",
    { uri := "buncument://a", name := "A", description := "", mimeType := "text/markdown",
      filePath := some "docs/a.md", isDirectory := false }),
   ("buncument://b",
    { uri := "buncument://b", name := "B", description := "", mimeType := "text/markdown",
      filePath := some "docs/b.md", isDirectory := false }),
   ("buncument://c",
    { uri := "buncument://c", name := "C", description := "", mimeType := "text/markdown",
      filePath := some "docs/c.md", isDirectory := false })]

/-- C3/C4 filesystem: `a.md` has one occurrence of `ws`, `b.md` has three,
`c.md` has none. -/
def fsC3 : String → Option String :=
  fun p =>
    if p = "docs/a.md" then some "ws intro"
    else if p = "docs/b.md" then some "ws ws ws"
    else if p = "docs/c.md" then some "nothing here"
    else none

/-- C9 environment: the index lists a document whose backing file is
unreadable. -/
def idxC9 : List (String × IndexedResource) :=
  [("buncument://ok",
    { uri := "buncument://ok", name := "Ok", description := "", mimeType := "text/markdown",
      filePath := some "docs/ok.md", isDirectory := false }),
   ("buncument://broken",
    { uri := "buncument://broken", name := "Broken", description := "", mimeType := "text/markdown",
      filePath := some "docs/broken.md", isDirectory := false })]

/-- C9 filesystem: `broken.md` cannot be read. -/
def fsC9 : String → Option String :=
  fun p => if p = "docs/ok.md" then some "hit hit" else none

/-- C5 environment: a docs tree with a single text file containing a match. -/
def envC5 : WalkServer.WalkEnv :=
  { docsDir := "docs"
    fs := fun p => if p = "docs/a.md" then some "hit" else none
    fileSize := fun _ => 3
    pathKind := fun p => if p = "docs" then some true
      else if p = "docs/a.md" then some false else none
    walkFiles := fun p _ => if p = "docs" then [("a.md", "docs/a.md")] else [] }

/-- C6 counterexample environment (index side): the page's backing file
exists only as `{slug}/index.md`, and contains a searchable occurrence. -/
def envC6 : Unified.BuildEnv :=
  { docsDir := "docs"
    pageMap := [("foo",
      { title := "Foo", description := "", divider := "", disabled := false, href := none })]
    guidesDirExists := false
    guidesFiles := []
    guidesSubdirs := []
    ecosystemDirExists := false
    ecosystemFiles := []
    fs := fun p => if p = "docs/foo/index.md" then some "needle needle" else none }

/-- C6 counterexample environment (legacy-search side): the same tree seen
by `src/index.ts` — `docs/foo.md` does not exist, `docs/foo/index.md` does. -/
def envC6I : IndexTs.ServeEnv :=
  { docsDir := "docs"
    pageMap := [("foo",
      { title := "Foo", description := "", divider := "", disabled := false, href := none })]
    pathExists := fun p => p = "docs/foo/index.md"
    fs := fun p => if p = "docs/foo/index.md" then some "needle needle" else none
    guidesDirExists := false
    guidesSubdirs := []
    guidesIndexJson := fun _ => none
    lsMd := fun _ => []
    ecosystemDirExists := false
    ecosystemFiles := [] }

/-- C6 witness environment: one page backed by `{slug}.md`, one backed by
`{slug}/index.md`, one missing entirely. -/
def envC6W : Unified.BuildEnv :=
  { docsDir := "docs"
    pageMap :=
      [("a", { title := "A", description := "", divider := "", disabled := false, href := none }),
       ("b", { title := "B", description := "", divider := "", disabled := false, href := none }),
       ("c", { title := "C", description := "", divider := "", disabled := false, href := none })]
    guidesDirExists := false
    guidesFiles := []
    guidesSubdirs := []
    ecosystemDirExists := false
    ecosystemFiles := []
    fs := fun p =>
      if p = "docs/a.md" then some "A!"
      else if p = "docs/b/index.md" then some "B!" else none }

/-- C7 witness fetch collaborator: fails on the full pre-release candidate,
succeeds on the release-only candidate. -/
def fetchC7 : String → Except String Unit :=
  fun v => if v = "1.2.3" then .ok () else .error ("no tag bun-v" ++ v)

/-- C7 witness fetch collaborator that always fails. -/
def fetchC7bad : String → Except String Unit :=
  fun v => .error ("no tag bun-v" ++ v)

/-! # Lemmas and claim theorems -/

/-! ## The JavaScript `Map` embedding -/

theorem mapGet_mapSet {α : Type} (m : List (String × α)) (k : String) (v : α) (k' : String) :
    mapGet (mapSet m k v) k' = if k' = k then some v else mapGet m k' := by
  induction m with
  | nil =>
    simp only [mapSet, mapGet]
    by_cases h : k = k'
    · subst h; simp
    · rw [if_neg h, if_neg (fun h' : k' = k => h h'.symm)]
  | cons hd tl ih =>
    obtain ⟨k₀, v₀⟩ := hd
    simp only [mapSet]
    by_cases h0 : k₀ = k
    · subst h0
      rw [if_pos rfl]
      simp only [mapGet]
      by_cases h : k₀ = k'
      · subst h; simp
      · rw [if_neg h, if_neg (fun h' : k' = k₀ => h h'.symm), if_neg h]
    · rw [if_neg h0]
      show (if k₀ = k' then some v₀ else mapGet (mapSet tl k v) k') = _
      simp only [mapGet]
      rw [ih]
      by_cases h1 : k₀ = k'
      · subst h1
        rw [if_pos rfl, if_neg h0, if_pos rfl]
      · rw [if_neg h1, if_neg h1]

/-- A sequence of `Map.set` calls starting from a map `m0`: the lookup finds
the value of the last write for the key, falling back to `m0`. -/
theorem mapGet_foldl_mapSet {α : Type} (ins : List (String × α))
    (m0 : List (String × α)) (k : String) :
    mapGet (ins.foldl (fun m kv => mapSet m kv.1 kv.2) m0) k =
      ((ins.reverse.find? (fun kv => kv.1 == k)).map Prod.snd).or (mapGet m0 k) := by
  induction ins using List.reverseRecOn with
  | nil => simp
  | append_singleton l kv ih =>
    rw [List.foldl_append]
    simp only [List.foldl_cons, List.foldl_nil, List.reverse_append, List.reverse_cons,
      List.reverse_nil, List.nil_append, List.cons_append, List.find?_cons]
    rw [mapGet_mapSet]
    by_cases h : k = kv.1
    · have : (kv.1 == k) = true := by simp [h]
      simp [h, this]
    · have : (kv.1 == k) = false := by simp; intro h'; exact h h'.symm
      simp [h, this, ih]

theorem mem_of_mapGet_eq_some {α : Type} {m : List (String × α)} {k : String} {v : α}
    (h : mapGet m k = some v) : (k, v) ∈ m := by
  induction m with
  | nil => simp [mapGet] at h
  | cons hd tl ih =>
    obtain ⟨k₀, v₀⟩ := hd
    simp only [mapGet] at h
    by_cases hk : k₀ = k
    · rw [if_pos hk] at h
      obtain rfl := hk
      obtain rfl : v₀ = v := by injection h
      exact List.mem_cons_self _ _
    · rw [if_neg hk] at h
      exact List.mem_cons_of_mem _ (ih h)

theorem mapGet_eq_some_of_mem_nodup {α : Type} {m : List (String × α)} {k : String} {v : α}
    (hnd : (m.map Prod.fst).Nodup) (h : (k, v) ∈ m) : mapGet m k = some v := by
  induction m with
  | nil => simp at h
  | cons hd tl ih =>
    obtain ⟨k₀, v₀⟩ := hd
    simp only [List.map_cons, List.nodup_cons] at hnd
    rcases List.mem_cons.mp h with heq | hmem
    · have hk : k = k₀ := congrArg Prod.fst heq
      have hv : v = v₀ := congrArg Prod.snd heq
      subst hk; subst hv
      simp [mapGet]
    · have hk : k₀ ≠ k := by
        intro hk
        subst hk
        exact hnd.1 (List.mem_map.mpr ⟨(k₀, v), hmem, rfl⟩)
      simp only [mapGet, if_neg hk]
      exact ih hnd.2 hmem

/-! ## The shared result sort: order, truncation, stability -/

/-- Inserting into the descending order: the entries of any fixed match
count keep their relative order (the inserted entry, if of that count, comes
first — it is inserted before every equal-count entry it meets). -/
theorem filter_orderedInsert_count (a : SearchResult) (l : List SearchResult) (c : Nat) :
    (List.orderedInsert (fun x y => y.matchCount ≤ x.matchCount) a l).filter
        (fun x => decide (x.matchCount = c)) =
      if a.matchCount = c then
        a :: l.filter (fun x => decide (x.matchCount = c))
      else l.filter (fun x => decide (x.matchCount = c)) := by
  induction l with
  | nil =>
    by_cases h : a.matchCount = c <;> simp [List.orderedInsert, h]
  | cons b t ih =>
    simp only [List.orderedInsert]
    by_cases hr : b.matchCount ≤ a.matchCount
    · rw [if_pos hr]
      by_cases h : a.matchCount = c <;> simp [List.filter_cons, h]
    · rw [if_neg hr]
      by_cases hb : b.matchCount = c
      · by_cases h : a.matchCount = c
        · exact absurd (le_of_eq (hb.trans h.symm)) hr
        · simp [List.filter_cons, hb, h, ih]
      · simp [List.filter_cons, hb, ih]

/-- Stability of the JavaScript sort: filtering the sorted list down to one
match count gives exactly the equal-count entries in encounter order. -/
theorem filter_sortByCountDesc (l : List SearchResult) (c : Nat) :
    (sortByCountDesc l).filter (fun x => decide (x.matchCount = c)) =
      l.filter (fun x => decide (x.matchCount = c)) := by
  induction l with
  | nil => rfl
  | cons a t ih =>
    show (List.orderedInsert _ a (sortByCountDesc t)).filter _ = _
    rw [filter_orderedInsert_count a (sortByCountDesc t) c]
    by_cases h : a.matchCount = c <;> simp [List.filter_cons, h, ih]

/-- The JavaScript sort is a permutation of its input. -/
theorem sortByCountDesc_perm (l : List SearchResult) :
    (sortByCountDesc l).Perm l :=
  List.perm_insertionSort _ l

/-- The JavaScript sort produces a list descending in `matchCount`. -/
theorem sortByCountDesc_sorted (l : List SearchResult) :
    (sortByCountDesc l).Pairwise (fun a b => b.matchCount ≤ a.matchCount) := by
  haveI : IsTotal SearchResult (fun a b => b.matchCount ≤ a.matchCount) :=
    ⟨fun a b => (le_total b.matchCount a.matchCount).imp id id⟩
  haveI : IsTrans SearchResult (fun a b => b.matchCount ≤ a.matchCount) :=
    ⟨fun _ _ _ h1 h2 => le_trans h2 h1⟩
  exact List.sorted_insertionSort _ l

/-- Everything the index-driven search returns comes from an index entry:
a non-directory document with a backing path whose content was readable,
counted positive by the compiled pattern. -/
theorem mem_collectResults {fs : String → Option String} {count : String → Nat}
    {index : List (String × IndexedResource)} {searchPath : String}
    {r : SearchResult}
    (h : r ∈ Unified.collectResults fs count index searchPath) :
    ∃ p ∈ index, ∃ fp content,
      p.2.filePath = some fp ∧ p.2.isDirectory = false ∧
      fs fp = some content ∧ r.matchCount = count content ∧
      0 < r.matchCount ∧ r.uri = p.2.uri := by
  obtain ⟨p, hp, hf⟩ := List.mem_filterMap.mp h
  refine ⟨p, hp, ?_⟩
  rcases hfp : p.2.filePath with _ | fp
  · rw [hfp] at hf; exact absurd hf (by simp)
  · rw [hfp] at hf
    simp only at hf
    by_cases hdir : p.2.isDirectory ∨ fp = ""
    · rw [if_pos hdir] at hf; exact absurd hf (by simp)
    · rw [if_neg hdir] at hf
      push_neg at hdir
      by_cases hsp : searchPath ≠ "" ∧
          ¬ startsWithStr (replaceFirstStr p.1 "buncument://") searchPath
      · rw [if_pos hsp] at hf; exact absurd hf (by simp)
      · rw [if_neg hsp] at hf
        by_cases hmc : 0 < countMatches fs count fp
        · rw [if_pos hmc] at hf
          obtain rfl : ({ uri := p.2.uri, matchCount := countMatches fs count fp }
              : SearchResult) = r := by injection hf
          rcases hread : fs fp with _ | content
          · rw [countMatches, hread] at hmc; simp at hmc
          · refine ⟨fp, content, rfl, by simpa using hdir.1, hread, ?_, ?_, rfl⟩
            · show countMatches fs count fp = count content
              rw [countMatches, hread]
            · exact hmc
        · rw [if_neg hmc] at hf; exact absurd hf (by simp)

/-! ## `normalizePath` machinery (C8)

The two regex replacements of `normalizePath` are `stripLead`/`stripTrail`
followed by `collapseSlashes`. The key facts: collapsing preserves the
first and last characters, its output has no adjacent slashes, and each
stage is the identity on its own output. -/

theorem collapseSlashes_head? (l : List Char) :
    (WalkServer.collapseSlashes l).head? = l.head? := by
  induction l with
  | nil => rfl
  | cons a t ih =>
    cases t with
    | nil => rfl
    | cons b r =>
      rw [WalkServer.collapseSlashes]
      by_cases h : a = '/' ∧ b = '/'
      · rw [if_pos h, ih]
        simp [h.1, h.2]
      · rw [if_neg h]
        rfl

theorem collapseSlashes_getLast? (l : List Char) :
    (WalkServer.collapseSlashes l).getLast? = l.getLast? := by
  induction l with
  | nil => rfl
  | cons a t ih =>
    cases t with
    | nil => rfl
    | cons b r =>
      simp only [WalkServer.collapseSlashes]
      by_cases h : a = '/' ∧ b = '/'
      · rw [if_pos h, ih, List.getLast?_cons_cons]
      · rw [if_neg h]
        have hne : WalkServer.collapseSlashes (b :: r) ≠ [] := by
          intro hnil
          have hh := collapseSlashes_head? (b :: r)
          rw [hnil] at hh
          simp at hh
        cases hx : WalkServer.collapseSlashes (b :: r) with
        | nil => exact absurd hx hne
        | cons c cs =>
          rw [List.getLast?_cons_cons, ← hx, ih, List.getLast?_cons_cons]

theorem collapseSlashes_chain' (l : List Char) :
    (WalkServer.collapseSlashes l).Chain' (fun a b => ¬ (a = '/' ∧ b = '/')) := by
  induction l with
  | nil => simp [WalkServer.collapseSlashes]
  | cons a t ih =>
    cases t with
    | nil => simp [WalkServer.collapseSlashes]
    | cons b r =>
      simp only [WalkServer.collapseSlashes]
      by_cases h : a = '/' ∧ b = '/'
      · rw [if_pos h]; exact ih
      · rw [if_neg h, List.chain'_cons']
        refine ⟨fun y hy => ?_, ih⟩
        rw [collapseSlashes_head?] at hy
        simp only [List.head?_cons, Option.mem_def, Option.some.injEq] at hy
        subst hy
        exact h

theorem collapseSlashes_eq_self {l : List Char}
    (h : l.Chain' (fun a b => ¬ (a = '/' ∧ b = '/'))) :
    WalkServer.collapseSlashes l = l := by
  induction l with
  | nil => rfl
  | cons a t ih =>
    cases t with
    | nil => rfl
    | cons b r =>
      obtain ⟨hab, htail⟩ := List.chain'_cons.mp h
      simp only [WalkServer.collapseSlashes]
      rw [if_neg hab, ih htail]

theorem dropWhile_head?_false {p : Char → Bool} {l : List Char} {c : Char}
    (h : (l.dropWhile p).head? = some c) : p c = false := by
  induction l with
  | nil => simp [List.dropWhile] at h
  | cons a t ih =>
    rw [List.dropWhile_cons] at h
    by_cases hp : p a
    · rw [if_pos hp] at h
      exact ih h
    · rw [if_neg hp] at h
      simp only [List.head?_cons, Option.some.injEq] at h
      subst h
      exact Bool.not_eq_true _ ▸ hp

theorem dropWhile_suffix_exists (p : Char → Bool) (l : List Char) :
    ∃ s, s ++ l.dropWhile p = l := by
  induction l with
  | nil => exact ⟨[], rfl⟩
  | cons a t ih =>
    rw [List.dropWhile_cons]
    by_cases hp : p a
    · obtain ⟨s, hs⟩ := ih
      exact ⟨a :: s, by rw [if_pos hp, List.cons_append, hs]⟩
    · exact ⟨[], by rw [if_neg hp]; rfl⟩

theorem head?_of_stripTrail {l : List Char} {c : Char}
    (h : (WalkServer.stripTrail l).head? = some c) : l.head? = some c := by
  obtain ⟨s, hs⟩ := dropWhile_suffix_exists (fun c => decide (c = '/')) l.reverse
  have hl : WalkServer.stripTrail l ++ s.reverse = l := by
    have := congrArg List.reverse hs
    rwa [List.reverse_append, List.reverse_reverse] at this
  rw [← hl, List.head?_append, h]
  rfl

theorem getLast?_stripTrail_ne {l : List Char}
    (h : (WalkServer.stripTrail l).getLast? = some '/') : False := by
  rw [WalkServer.stripTrail, List.getLast?_reverse] at h
  have := dropWhile_head?_false h
  simp at this

theorem stripLead_eq_self {l : List Char} (h : l.head? ≠ some '/') :
    WalkServer.stripLead l = l := by
  cases l with
  | nil => rfl
  | cons a t =>
    have ha : a ≠ '/' := by
      intro hc; exact h (by rw [hc]; rfl)
    rw [WalkServer.stripLead, List.dropWhile_cons, if_neg (by simpa using ha)]

theorem stripTrail_eq_self {l : List Char} (h : l.getLast? ≠ some '/') :
    WalkServer.stripTrail l = l := by
  rw [WalkServer.stripTrail]
  have : l.reverse.head? ≠ some '/' := by rwa [List.head?_reverse]
  have hdw : l.reverse.dropWhile (fun c => decide (c = '/')) = l.reverse := by
    cases hr : l.reverse with
    | nil => rfl
    | cons a t =>
      rw [hr] at this
      have ha : a ≠ '/' := fun hc => this (by rw [hc]; rfl)
      rw [List.dropWhile_cons, if_neg (by simpa using ha)]
  rw [hdw, List.reverse_reverse]

theorem normChars_head?_ne (l : List Char) :
    (WalkServer.normChars l).head? ≠ some '/' := by
  intro h
  rw [WalkServer.normChars, collapseSlashes_head?] at h
  have h2 := head?_of_stripTrail h
  have := dropWhile_head?_false h2
  simp at this

theorem normChars_getLast?_ne (l : List Char) :
    (WalkServer.normChars l).getLast? ≠ some '/' := by
  intro h
  rw [WalkServer.normChars, collapseSlashes_getLast?] at h
  exact getLast?_stripTrail_ne h

theorem normChars_idem (l : List Char) :
    WalkServer.normChars (WalkServer.normChars l) = WalkServer.normChars l := by
  conv_lhs => rw [WalkServer.normChars]
  rw [stripLead_eq_self (normChars_head?_ne l),
    stripTrail_eq_self (normChars_getLast?_ne l)]
  exact collapseSlashes_eq_self (collapseSlashes_chain' _)

theorem normalizePath_eq (s : String) :
    WalkServer.normalizePath s = (WalkServer.normChars s.data).asString := by
  by_cases h : s = ""
  · subst h; rfl
  · rw [WalkServer.normalizePath, if_neg h]

/-- collapsing a doubled slash in the middle gives the same result as a
single slash. -/
theorem collapseSlashes_dedup (u w : List Char) :
    WalkServer.collapseSlashes (u ++ '/' :: '/' :: w) =
      WalkServer.collapseSlashes (u ++ '/' :: w) := by
  induction u with
  | nil =>
    show WalkServer.collapseSlashes ('/' :: '/' :: w) = WalkServer.collapseSlashes ('/' :: w)
    rw [WalkServer.collapseSlashes, if_pos ⟨rfl, rfl⟩]
  | cons c u' ih =>
    cases u' with
    | nil =>
      show WalkServer.collapseSlashes (c :: '/' :: '/' :: w) =
        WalkServer.collapseSlashes (c :: '/' :: w)
      have hbase : WalkServer.collapseSlashes ('/' :: '/' :: w) =
          WalkServer.collapseSlashes ('/' :: w) := ih
      have e1 : ∀ z : List Char, WalkServer.collapseSlashes (c :: '/' :: z) =
          if c = '/' ∧ ('/' : Char) = '/' then WalkServer.collapseSlashes ('/' :: z)
          else c :: WalkServer.collapseSlashes ('/' :: z) := fun z => by
        rw [WalkServer.collapseSlashes]
      rw [e1, e1]
      by_cases hc : c = '/'
      · rw [if_pos ⟨hc, rfl⟩, if_pos ⟨hc, rfl⟩, hbase]
      · rw [if_neg (fun h => hc h.1), if_neg (fun h => hc h.1), hbase]
    | cons d u'' =>
      show WalkServer.collapseSlashes (c :: d :: (u'' ++ '/' :: '/' :: w)) =
        WalkServer.collapseSlashes (c :: d :: (u'' ++ '/' :: w))
      have ih' : WalkServer.collapseSlashes (d :: (u'' ++ '/' :: '/' :: w)) =
          WalkServer.collapseSlashes (d :: (u'' ++ '/' :: w)) := ih
      have e2 : ∀ z : List Char, WalkServer.collapseSlashes (c :: d :: z) =
          if c = '/' ∧ d = '/' then WalkServer.collapseSlashes (d :: z)
          else c :: WalkServer.collapseSlashes (d :: z) := fun z => by
        rw [WalkServer.collapseSlashes]
      rw [e2, e2]
      by_cases hcd : c = '/' ∧ d = '/'
      · rw [if_pos hcd, if_pos hcd, ih']
      · rw [if_neg hcd, if_neg hcd, ih']

theorem stripLead_append_one (a b : List Char) :
    WalkServer.stripLead (a ++ '/' :: b) =
      if (WalkServer.stripLead a).isEmpty then WalkServer.stripLead b
      else WalkServer.stripLead a ++ '/' :: b := by
  simp only [WalkServer.stripLead]
  rw [List.dropWhile_append]
  by_cases h : (List.dropWhile (fun c => decide (c = '/')) a).isEmpty
  · rw [if_pos h, if_pos h]
    simp [List.dropWhile_cons]
  · rw [if_neg h, if_neg h]

theorem stripLead_append_two (a b : List Char) :
    WalkServer.stripLead (a ++ '/' :: '/' :: b) =
      if (WalkServer.stripLead a).isEmpty then WalkServer.stripLead b
      else WalkServer.stripLead a ++ '/' :: '/' :: b := by
  simp only [WalkServer.stripLead]
  rw [List.dropWhile_append]
  by_cases h : (List.dropWhile (fun c => decide (c = '/')) a).isEmpty
  · rw [if_pos h, if_pos h]
    simp [List.dropWhile_cons]
  · rw [if_neg h, if_neg h]

theorem stripTrail_def (l : List Char) :
    WalkServer.stripTrail l = (WalkServer.stripLead l.reverse).reverse := rfl

theorem stripTrail_append_one (a b : List Char) :
    WalkServer.stripTrail (a ++ '/' :: b) =
      if (WalkServer.stripLead b.reverse).isEmpty then WalkServer.stripTrail a
      else a ++ '/' :: (WalkServer.stripLead b.reverse).reverse := by
  rw [stripTrail_def]
  have hrev : (a ++ '/' :: b).reverse = b.reverse ++ '/' :: a.reverse := by
    simp [List.reverse_append]
  rw [hrev, stripLead_append_one b.reverse a.reverse]
  by_cases h : (WalkServer.stripLead b.reverse).isEmpty
  · rw [if_pos h, if_pos h, stripTrail_def]
  · rw [if_neg h, if_neg h]
    simp [List.reverse_append]

theorem stripTrail_append_two (a b : List Char) :
    WalkServer.stripTrail (a ++ '/' :: '/' :: b) =
      if (WalkServer.stripLead b.reverse).isEmpty then WalkServer.stripTrail a
      else a ++ '/' :: '/' :: (WalkServer.stripLead b.reverse).reverse := by
  rw [stripTrail_def]
  have hrev : (a ++ '/' :: '/' :: b).reverse = b.reverse ++ '/' :: '/' :: a.reverse := by
    simp [List.reverse_append]
  rw [hrev, stripLead_append_two b.reverse a.reverse]
  by_cases h : (WalkServer.stripLead b.reverse).isEmpty
  · rw [if_pos h, if_pos h, stripTrail_def]
  · rw [if_neg h, if_neg h]
    simp [List.reverse_append]

theorem normChars_dedup (x y : List Char) :
    WalkServer.normChars (x ++ '/' :: '/' :: y) =
      WalkServer.normChars (x ++ '/' :: y) := by
  rw [WalkServer.normChars, WalkServer.normChars,
    show WalkServer.stripLead (x ++ '/' :: '/' :: y)
      = WalkServer.stripLead (x ++ '/' :: '/' :: y) from rfl,
    stripLead_append_two x y, stripLead_append_one x y]
  by_cases hx : (WalkServer.stripLead x).isEmpty
  · rw [if_pos hx, if_pos hx]
  · rw [if_neg hx, if_neg hx,
      stripTrail_append_two (WalkServer.stripLead x) y,
      stripTrail_append_one (WalkServer.stripLead x) y]
    by_cases hy : (WalkServer.stripLead y.reverse).isEmpty
    · rw [if_pos hy, if_pos hy]
    · rw [if_neg hy, if_neg hy]
      exact collapseSlashes_dedup (WalkServer.stripLead x)
        (WalkServer.stripLead y.reverse).reverse

/-! ## `normalizeSlug` rejection machinery (C10) -/

theorem isPrefixOf_iff_append {p l : List Char} :
    p.isPrefixOf l = true ↔ ∃ t, l = p ++ t := by
  induction p generalizing l with
  | nil => simp [List.isPrefixOf]
  | cons a p' ih =>
    cases l with
    | nil => simp [List.isPrefixOf]
    | cons b bs =>
      simp only [List.isPrefixOf, Bool.and_eq_true, beq_iff_eq, List.cons_append,
        List.cons.injEq]
      rw [ih]
      constructor
      · rintro ⟨rfl, t, rfl⟩
        exact ⟨t, rfl, rfl⟩
      · rintro ⟨t, rfl, rfl⟩
        exact ⟨rfl, t, rfl⟩

theorem containsSeq_iff (pat l : List Char) :
    containsSeq pat l = true ↔ ∃ s t, l = s ++ pat ++ t := by
  induction l with
  | nil =>
    simp only [containsSeq, List.isEmpty_iff]
    constructor
    · intro h
      exact ⟨[], [], by simp [h]⟩
    · rintro ⟨s, t, h⟩
      rcases List.append_eq_nil.mp ((List.append_eq_nil.mp h.symm).1) with ⟨-, h2⟩
      exact h2
  | cons x xs ih =>
    simp only [containsSeq, Bool.or_eq_true]
    constructor
    · rintro (hp | hc)
      · obtain ⟨t, ht⟩ := isPrefixOf_iff_append.mp hp
        exact ⟨[], t, by simpa using ht⟩
      · obtain ⟨s, t, h⟩ := ih.mp hc
        exact ⟨x :: s, t, by simp [h]⟩
    · rintro ⟨s, t, h⟩
      cases s with
      | nil =>
        exact Or.inl (isPrefixOf_iff_append.mpr ⟨t, by simpa using h⟩)
      | cons y s' =>
        refine Or.inr (ih.mpr ⟨s', t, ?_⟩)
        have h2 := (List.cons.injEq ..).mp (by simpa using h)
        rw [← List.append_assoc] at h2
        exact h2.2

/-- The scheme marker `"://"`, as a character list. -/
theorem containsSeq_scheme_dropWhile {l : List Char}
    (h : containsSeq [':', '/', '/'] l = true) :
    containsSeq [':', '/', '/'] (l.dropWhile Char.isWhitespace) = true := by
  obtain ⟨s, t, rfl⟩ := (containsSeq_iff _ _).mp h
  apply (containsSeq_iff _ _).mpr
  rw [List.append_assoc, List.dropWhile_append]
  by_cases hs : (s.dropWhile Char.isWhitespace).isEmpty
  · rw [if_pos hs]
    have hkeep : List.dropWhile Char.isWhitespace ([':', '/', '/'] ++ t)
        = [':', '/', '/'] ++ t := by
      show List.dropWhile Char.isWhitespace (':' :: '/' :: '/' :: t) = _
      rw [List.dropWhile_cons, if_neg (by decide)]
      rfl
    rw [hkeep]
    exact ⟨[], t, rfl⟩
  · rw [if_neg hs]
    exact ⟨s.dropWhile Char.isWhitespace, t, by rw [List.append_assoc]⟩

theorem containsSeq_scheme_rev_dropWhile {l : List Char}
    (h : containsSeq [':', '/', '/'] l = true) :
    containsSeq [':', '/', '/']
      ((l.reverse.dropWhile Char.isWhitespace).reverse) = true := by
  obtain ⟨s, t, rfl⟩ := (containsSeq_iff _ _).mp h
  apply (containsSeq_iff _ _).mpr
  have hrev : (s ++ [':', '/', '/'] ++ t).reverse
      = t.reverse ++ ['/', '/', ':'] ++ s.reverse := by
    simp [List.reverse_append]
  rw [hrev, List.append_assoc, List.dropWhile_append]
  by_cases ht : (t.reverse.dropWhile Char.isWhitespace).isEmpty
  · rw [if_pos ht]
    have hkeep : List.dropWhile Char.isWhitespace (['/', '/', ':'] ++ s.reverse)
        = ['/', '/', ':'] ++ s.reverse := by
      show List.dropWhile Char.isWhitespace ('/' :: '/' :: ':' :: s.reverse) = _
      rw [List.dropWhile_cons, if_neg (by decide)]
      rfl
    rw [hkeep]
    refine ⟨s, [], ?_⟩
    simp [List.reverse_append]
  · rw [if_neg ht]
    refine ⟨s, (t.reverse.dropWhile Char.isWhitespace).reverse, ?_⟩
    simp [List.reverse_append]

/-- Trimming preserves the presence of the scheme marker. -/
theorem containsSeq_scheme_trim {l : List Char}
    (h : containsSeq [':', '/', '/'] l = true) :
    containsSeq [':', '/', '/'] (trimChars l) = true :=
  containsSeq_scheme_rev_dropWhile (containsSeq_scheme_dropWhile h)

theorem normalizeSlug_error_of_scheme {input : String}
    (h : containsSeqStr input "://" = true) :
    ∃ e, Unified.normalizeSlug input = .error e := by
  simp only [Unified.normalizeSlug]
  by_cases h0 : jsTrim input = ""
  · rw [if_pos h0]
    exact ⟨_, rfl⟩
  · rw [if_neg h0]
    have hsch : containsSeqStr (jsTrim input) "://" = true := by
      have : ("://" : String).data = [':', '/', '/'] := rfl
      show containsSeq ("://" : String).data (jsTrim input).data = true
      rw [this]
      show containsSeq [':', '/', '/'] (trimChars input.data) = true
      exact containsSeq_scheme_trim (by
        have h' : containsSeq ("://" : String).data input.data = true := h
        rwa [this] at h')
    rw [if_pos hsch]
    exact ⟨_, rfl⟩

theorem normalizeSlug_error_of_core_empty {input : String}
    (h : Unified.slugCore input = "") :
    ∃ e, Unified.normalizeSlug input = .error e := by
  simp only [Unified.normalizeSlug]
  by_cases h0 : jsTrim input = ""
  · rw [if_pos h0]
    exact ⟨_, rfl⟩
  · rw [if_neg h0]
    by_cases h1 : containsSeqStr (jsTrim input) "://"
    · rw [if_pos h1]
      exact ⟨_, rfl⟩
    · rw [if_neg h1, if_pos h]
      exact ⟨_, rfl⟩

/-! ## The version-candidate fallback (C7) -/

theorem fallbackGo_cons_error {E : Type} (fetch : String → Except E Unit)
    (v : String) (rest : List String) (last : Option E) {e : E}
    (hfv : fetch v = .error e) :
    Locator.fallbackGo fetch (v :: rest) last =
      (v :: (Locator.fallbackGo fetch rest (some e)).1,
        (Locator.fallbackGo fetch rest (some e)).2) := by
  rw [Locator.fallbackGo, hfv]

theorem fallbackGo_first_success {E : Type} (fetch : String → Except E Unit) :
    ∀ (pre : List String) (v : String) (post : List String) (last : Option E),
      (∀ u ∈ pre, (fetch u).isOk = false) → (fetch v).isOk = true →
      Locator.fallbackGo fetch (pre ++ v :: post) last = (pre ++ [v], .ok ()) := by
  intro pre
  induction pre with
  | nil =>
    intro v post last _ hv
    rcases hfv : fetch v with e | u
    · rw [hfv] at hv; simp [Except.isOk, Except.toBool] at hv
    · cases u
      simp [Locator.fallbackGo, hfv]
  | cons u pre' ih =>
    intro v post last hpre hv
    have hu := hpre u (List.mem_cons_self u pre')
    rcases hfu : fetch u with e | x
    · show Locator.fallbackGo fetch (u :: (pre' ++ v :: post)) last = _
      rw [fallbackGo_cons_error fetch u _ last hfu,
        ih v post (some e) (fun w hw => hpre w (List.mem_cons_of_mem _ hw)) hv]
      rfl
    · rw [hfu] at hu; simp [Except.isOk, Except.toBool] at hu

theorem fallbackGo_all_fail {E : Type} (fetch : String → Except E Unit) :
    ∀ (versions : List String) (last : Option E),
      (∀ v ∈ versions, (fetch v).isOk = false) →
      ∀ h : versions ≠ [],
        ∃ e, fetch (versions.getLast h) = .error e ∧
          Locator.fallbackGo fetch versions last = (versions, .error e) := by
  intro versions
  induction versions with
  | nil => intro _ _ h; exact absurd rfl h
  | cons v rest ih =>
    intro last hall h
    have hv := hall v (List.mem_cons_self v rest)
    rcases hfv : fetch v with e | x
    · cases rest with
      | nil =>
        exact ⟨e, hfv, by rw [fallbackGo_cons_error fetch v [] last hfv]; rfl⟩
      | cons w rest' =>
        obtain ⟨e', he1, he2⟩ :=
          ih (some e) (fun u hu => hall u (List.mem_cons_of_mem _ hu))
            (List.cons_ne_nil w rest')
        refine ⟨e', ?_, ?_⟩
        · rwa [List.getLast_cons (List.cons_ne_nil w rest')]
        · show Locator.fallbackGo fetch (v :: (w :: rest')) last = _
          rw [fallbackGo_cons_error fetch v _ last hfv, he2]
    · rw [hfv] at hv; simp [Except.isOk, Except.toBool] at hv

/-- Membership in the final search output implies membership in the scan. -/
theorem mem_grep_ok {compile : String → String → Option (String → Nat)}
    {fs : String → Option String} {index : List (String × IndexedResource)}
    {pattern searchPath : String} {limit : Nat} {flags : String}
    {count : String → Nat} {out : List SearchResult}
    (hc : compile pattern (Unified.computeFlags flags) = some count)
    (h : Unified.grepDocuments compile fs index pattern searchPath limit flags = .ok out) :
    ∀ r ∈ out, r ∈ Unified.collectResults fs count index searchPath := by
  intro r hr
  rw [Unified.grepDocuments, hc] at h
  obtain rfl : (sortByCountDesc (Unified.collectResults fs count index searchPath)).take limit
      = out := by injection h
  exact (sortByCountDesc_perm _).mem_iff.mp (List.take_sublist _ _ |>.mem hr)

/-! # Claim theorems -/

/-- Claim C1 (amended): index-construction precedence in
`buildResourceIndex` is last-write-wins, not first-wins. Manifest (nav)
entries are inserted first (`indexInsertions` lists the `Map.set` calls in
program order: nav, guides, ecosystem), so a key that an auxiliary crawl
also produces ends up mapped to the crawl's resource: the final index maps
every key to the value of the LAST insertion for that key. -/
theorem buildResourceIndex_last_write_wins (env : Unified.BuildEnv) (k : String) :
    mapGet (Unified.buildResourceIndex env) k =
      ((Unified.indexInsertions env).reverse.find? (fun kv => kv.1 == k)).map
        Prod.snd := by
  rw [Unified.buildResourceIndex, mapGet_foldl_mapSet]
  cases ((Unified.indexInsertions env).reverse.find? (fun kv => kv.1 == k)).map
    Prod.snd <;> rfl

/-- Claim C1 counterexample: in `envC1` the manifest pass inserts exactly
`navResC1` under the colliding key, but the final index maps that key to
the guides-crawl resource `crawlResC1`, which differs from the
manifest-derived one — an auxiliary-crawl insertion does replace an
already-inserted manifest entry. -/
theorem buildResourceIndex_crawl_overwrites_manifest :
    Unified.navInsertions envC1 = [("buncument://guides/foo", navResC1)] ∧
    mapGet (Unified.buildResourceIndex envC1) "buncument://guides/foo" =
      some crawlResC1 ∧
    crawlResC1 ≠ navResC1 := by
  refine ⟨by decide, by decide, by decide⟩

/-- Claim C7 (amended): `downloadDocsWithFallback` attempts the candidates
of `listVersionCandidates` in order; the first success returns immediately
(the candidates after it are never passed to the fetch collaborator), and
when every candidate fails the error surfaced is the last candidate's.
(The candidate list itself starts with the build-metadata-stripped form,
not the exact version — see the counterexample.) -/
theorem downloadDocsWithFallback_order (version : String)
    (fetch : String → Except String Unit) :
    (∀ pre v post, Locator.listVersionCandidates version = pre ++ v :: post →
      (∀ u ∈ pre, (fetch u).isOk = false) → (fetch v).isOk = true →
      Locator.downloadDocsWithFallback fetch (Locator.listVersionCandidates version)
          = .ok () ∧
        Locator.attemptedVersions fetch (Locator.listVersionCandidates version)
          = pre ++ [v]) ∧
    (∀ h : Locator.listVersionCandidates version ≠ [],
      (∀ v ∈ Locator.listVersionCandidates version, (fetch v).isOk = false) →
      ∃ e, fetch ((Locator.listVersionCandidates version).getLast h) = .error e ∧
        Locator.downloadDocsWithFallback fetch (Locator.listVersionCandidates version)
          = .error e) := by
  constructor
  · intro pre v post hsplit hpre hv
    rw [Locator.downloadDocsWithFallback, Locator.attemptedVersions, hsplit,
      fallbackGo_first_success fetch pre v post none hpre hv]
    exact ⟨rfl, rfl⟩
  · intro h hall
    obtain ⟨e, he1, he2⟩ :=
      fallbackGo_all_fail fetch (Locator.listVersionCandidates version) none hall h
    exact ⟨e, he1, by rw [Locator.downloadDocsWithFallback, he2]⟩

/-- Claim C7 witness: for version `1.2.3-canary.1+abc` with a fetch that
fails on `1.2.3-canary.1` and succeeds on `1.2.3`, the fallback succeeds
having attempted exactly both candidates in order; with an always-failing
fetch it surfaces the last candidate's error. -/
theorem downloadDocsWithFallback_order_witness :
    (Locator.downloadDocsWithFallback fetchC7
        (Locator.listVersionCandidates "1.2.3-canary.1+abc") = .ok () ∧
      Locator.attemptedVersions fetchC7
        (Locator.listVersionCandidates "1.2.3-canary.1+abc") =
          ["1.2.3-canary.1"] ++ ["1.2.3"]) ∧
    ∃ e, fetchC7bad ((Locator.listVersionCandidates "1.2.3-canary.1+abc").getLast
        (by decide)) = .error e ∧
      Locator.downloadDocsWithFallback fetchC7bad
        (Locator.listVersionCandidates "1.2.3-canary.1+abc") = .error e :=
  ⟨(downloadDocsWithFallback_order "1.2.3-canary.1+abc" fetchC7).1
      ["1.2.3-canary.1"] "1.2.3" [] (by decide) (by decide) (by decide),
    (downloadDocsWithFallback_order "1.2.3-canary.1+abc" fetchC7bad).2
      (by decide) (by decide)⟩

/-- Claim C7 counterexample: for a version carrying build metadata the
exact version is never among the candidates — the first (and only)
candidate is the version with the `+` suffix stripped, so the fetch is
never attempted on the exact version string. -/
theorem listVersionCandidates_drops_exact :
    Locator.listVersionCandidates "1.2.3+abc" = ["1.2.3"] ∧
    "1.2.3+abc" ∉ Locator.listVersionCandidates "1.2.3+abc" := by
  refine ⟨by decide, by decide⟩

/-- Claim C8 (amended): `normalizePath` (the Resource Resolver's path
normalization) is idempotent, and adding a leading, trailing or duplicated
separator never changes its output. (The duplicated-separator half fails
for `normalizeSlug`, which strips only leading and trailing separators —
see the counterexample.) -/
theorem normalizePath_idempotent_invariant :
    (∀ s : String, WalkServer.normalizePath (WalkServer.normalizePath s) =
      WalkServer.normalizePath s) ∧
    (∀ s : String, WalkServer.normalizePath ("/" ++ s) =
      WalkServer.normalizePath s) ∧
    (∀ s : String, WalkServer.normalizePath (s ++ "/") =
      WalkServer.normalizePath s) ∧
    (∀ a b : String, WalkServer.normalizePath (a ++ "//" ++ b) =
      WalkServer.normalizePath (a ++ "/" ++ b)) := by
  refine ⟨fun s => ?_, fun s => ?_, fun s => ?_, fun a b => ?_⟩
  · rw [normalizePath_eq (WalkServer.normalizePath s), normalizePath_eq s]
    show (WalkServer.normChars (WalkServer.normChars s.data)).asString = _
    rw [normChars_idem]
  · rw [normalizePath_eq, normalizePath_eq]
    congr 1
  · rw [normalizePath_eq, normalizePath_eq]
    congr 1
    have hd : (s ++ "/").data = s.data ++ '/' :: ([] : List Char) := by
      simp [String.data_append]
    rw [hd]
    simp only [WalkServer.normChars]
    rw [stripLead_append_one s.data []]
    by_cases hx : (WalkServer.stripLead s.data).isEmpty
    · rw [if_pos hx]
      have hnil : WalkServer.stripLead s.data = [] := by
        simpa [List.isEmpty_iff] using hx
      rw [hnil]
      rfl
    · rw [if_neg hx, stripTrail_append_one (WalkServer.stripLead s.data) [],
        if_pos (by decide)]
  · rw [normalizePath_eq, normalizePath_eq]
    congr 1
    have hd2 : (a ++ "//" ++ b).data = a.data ++ '/' :: '/' :: b.data := by
      rw [String.data_append, String.data_append]
      simp
    have hd1 : (a ++ "/" ++ b).data = a.data ++ '/' :: b.data := by
      rw [String.data_append, String.data_append]
      simp
    rw [hd2, hd1]
    exact normChars_dedup a.data b.data

/-- Claim C8 counterexample: for `normalizeSlug` (the read-by-slug
normalization, which strips only leading and trailing separator runs) a
duplicated interior separator changes the resolved key: `a//b` and `a/b`
resolve to different index keys. -/
theorem normalizeSlug_duplicate_separator_cex :
    Unified.normalizeSlug "a//b" = .ok "buncument://a//b" ∧
    Unified.normalizeSlug "a/b" = .ok "buncument://a/b" ∧
    ("buncument://a//b" : String) ≠ "buncument://a/b" := by
  refine ⟨rfl, rfl, by decide⟩

/-- Claim C10 (confirmed): `readDocument` rejects — with an error raised by
`normalizeSlug`, before any index lookup, so independently of the index and
the filesystem — every input containing `"://"` and every input whose
`slugCore` reduction (trim, strip leading/trailing slashes, strip a
trailing `.md`) is empty. -/
theorem readDocument_rejects_invalid (input : String)
    (h : containsSeqStr input "://" = true ∨ Unified.slugCore input = "") :
    ∀ (index index' : List (String × IndexedResource))
      (fs fs' : String → Option String),
      (Unified.readDocument index fs input).isOk = false ∧
      Unified.readDocument index fs input =
        Unified.readDocument index' fs' input := by
  obtain ⟨e, he⟩ : ∃ e, Unified.normalizeSlug input = .error e := by
    rcases h with h | h
    · exact normalizeSlug_error_of_scheme h
    · exact normalizeSlug_error_of_core_empty h
  intro index index' fs fs'
  constructor
  · simp [Unified.readDocument, he, Except.isOk, Except.toBool]
  · simp [Unified.readDocument, he]

/-- Claim C10 witness: a scheme-qualified input is rejected identically for
two unrelated index/filesystem pairs. -/
theorem readDocument_rejects_invalid_witness :
    (containsSeqStr "https://bun.sh/docs" "://" = true ∨
      Unified.slugCore "https://bun.sh/docs" = "") ∧
    ((Unified.readDocument idxC9 fsC9 "https://bun.sh/docs").isOk = false ∧
      Unified.readDocument idxC9 fsC9 "https://bun.sh/docs" =
        Unified.readDocument [] (fun _ => none) "https://bun.sh/docs") :=
  ⟨Or.inl (by decide),
    readDocument_rejects_invalid "https://bun.sh/docs" (Or.inl (by decide))
      idxC9 [] fsC9 (fun _ => none)⟩

/-- Claim C3 (confirmed): the search output is descending in `matchCount`,
never longer than `limit`, and stable — for every count value, the output's
entries of that count are an initial segment of the scanned candidates of
that count, in encounter order. -/
theorem grepDocuments_ranking
    (compile : String → String → Option (String → Nat))
    (fs : String → Option String) (index : List (String × IndexedResource))
    (pattern searchPath : String) (limit : Nat) (flags : String)
    (count : String → Nat) (out : List SearchResult)
    (hc : compile pattern (Unified.computeFlags flags) = some count)
    (h : Unified.grepDocuments compile fs index pattern searchPath limit flags
      = .ok out) :
    out.Pairwise (fun a b => b.matchCount ≤ a.matchCount) ∧
    out.length ≤ limit ∧
    ∀ c : Nat, ∃ rest,
      out.filter (fun r => decide (r.matchCount = c)) ++ rest =
        (Unified.collectResults fs count index searchPath).filter
          (fun r => decide (r.matchCount = c)) := by
  rw [Unified.grepDocuments, hc] at h
  obtain rfl : (sortByCountDesc
      (Unified.collectResults fs count index searchPath)).take limit = out := by
    injection h
  refine ⟨?_, ?_, ?_⟩
  · exact List.Pairwise.sublist (List.take_sublist _ _) (sortByCountDesc_sorted _)
  · rw [List.length_take]
    exact min_le_left _ _
  · intro c
    refine ⟨List.filter (fun r => decide (r.matchCount = c)) ((sortByCountDesc
      (Unified.collectResults fs count index searchPath)).drop limit), ?_⟩
    rw [← List.filter_append, List.take_append_drop, filter_sortByCountDesc]

/-- Claim C3 witness: a concrete three-document search (counts 1, 3 and 0)
returns the two matching documents in descending order within the limit. -/
theorem grepDocuments_ranking_witness :
    ([⟨"buncument://b", 3⟩, ⟨"buncument://a", 1⟩] : List SearchResult).Pairwise
      (fun a b => b.matchCount ≤ a.matchCount) ∧
    ([⟨"buncument://b", 3⟩, ⟨"buncument://a", 1⟩] : List SearchResult).length ≤ 30 ∧
    ∀ c : Nat, ∃ rest,
      ([⟨"buncument://b", 3⟩, ⟨"buncument://a", 1⟩] : List SearchResult).filter
          (fun r => decide (r.matchCount = c)) ++ rest =
        (Unified.collectResults fsC3 (countOcc "ws") idxC3 "").filter
          (fun r => decide (r.matchCount = c)) :=
  grepDocuments_ranking compileLit fsC3 idxC3 "ws" "" 30 "g" (countOcc "ws")
    [⟨"buncument://b", 3⟩, ⟨"buncument://a", 1⟩] rfl rfl

/-- Claim C4 (confirmed): every returned entry has a positive `matchCount`
equal to the compiled pattern's count over the full content of its
document's backing file (read through the same `fs` the search used). -/
theorem grepDocuments_count_consistency
    (compile : String → String → Option (String → Nat))
    (fs : String → Option String) (index : List (String × IndexedResource))
    (pattern searchPath : String) (limit : Nat) (flags : String)
    (count : String → Nat) (out : List SearchResult)
    (hc : compile pattern (Unified.computeFlags flags) = some count)
    (h : Unified.grepDocuments compile fs index pattern searchPath limit flags
      = .ok out) :
    ∀ r ∈ out, 0 < r.matchCount ∧
      ∃ p ∈ index, r.uri = p.2.uri ∧ ∃ fp content,
        p.2.filePath = some fp ∧ fs fp = some content ∧
        r.matchCount = count content := by
  intro r hr
  obtain ⟨p, hp, fp, content, h1, h2, h3, h4, h5, h6⟩ :=
    mem_collectResults (mem_grep_ok hc h r hr)
  exact ⟨h5, p, hp, h6, fp, content, h1, h3, h4⟩

/-- Claim C4 witness: the top result of the concrete search has count 3,
which is the number of matches in its backing file's content. -/
theorem grepDocuments_count_consistency_witness :
    0 < (⟨"buncument://b", 3⟩ : SearchResult).matchCount ∧
    ∃ p ∈ idxC3, (⟨"buncument://b", 3⟩ : SearchResult).uri = p.2.uri ∧
      ∃ fp content, p.2.filePath = some fp ∧ fsC3 fp = some content ∧
        (⟨"buncument://b", 3⟩ : SearchResult).matchCount = countOcc "ws" content :=
  grepDocuments_count_consistency compileLit fsC3 idxC3 "ws" "" 30 "g"
    (countOcc "ws") [⟨"buncument://b", 3⟩, ⟨"buncument://a", 1⟩] rfl rfl
    ⟨"buncument://b", 3⟩ (by decide)

/-- Claim C9 (confirmed): when the pattern compiles the search call
succeeds, and a document whose backing file cannot be read (its count is
reported as zero) is silently omitted from the results. -/
theorem grepDocuments_skips_unreadable
    (compile : String → String → Option (String → Nat))
    (fs : String → Option String) (index : List (String × IndexedResource))
    (pattern searchPath : String) (limit : Nat) (flags : String)
    (count : String → Nat)
    (hc : compile pattern (Unified.computeFlags flags) = some count) :
    (Unified.grepDocuments compile fs index pattern searchPath limit flags).isOk
      = true ∧
    ∀ out, Unified.grepDocuments compile fs index pattern searchPath limit flags
        = .ok out →
      ∀ p ∈ index, ∀ fp, p.2.filePath = some fp → fs fp = none →
        countMatches fs count fp = 0 ∧
        ((∀ q ∈ index, q.2.uri = p.2.uri → q = p) →
          ∀ r ∈ out, r.uri ≠ p.2.uri) := by
  constructor
  · rw [Unified.grepDocuments, hc]
    rfl
  · intro out h p hp fp hfp hfs
    constructor
    · rw [countMatches, hfs]
    · intro huniq r hr hru
      obtain ⟨q, hq, fq, content, h1, h2, h3, h4, h5, h6⟩ :=
        mem_collectResults (mem_grep_ok hc h r hr)
      obtain rfl : q = p := huniq q hq (by rw [← h6, hru])
      rw [hfp] at h1
      obtain rfl : fp = fq := by injection h1
      rw [hfs] at h3
      exact Option.noConfusion h3

/-- Claim C9 witness: in an index with one readable and one unreadable
document, the search succeeds, the unreadable document's count is zero, and
its uri is absent from the results. -/
theorem grepDocuments_skips_unreadable_witness :
    (Unified.grepDocuments compileLit fsC9 idxC9 "hit" "" 30 "g").isOk = true ∧
    ∀ out, Unified.grepDocuments compileLit fsC9 idxC9 "hit" "" 30 "g" = .ok out →
      ∀ p ∈ idxC9, ∀ fp, p.2.filePath = some fp → fsC9 fp = none →
        countMatches fsC9 (countOcc "hit") fp = 0 ∧
        ((∀ q ∈ idxC9, q.2.uri = p.2.uri → q = p) →
          ∀ r ∈ out, r.uri ≠ p.2.uri) :=
  grepDocuments_skips_unreadable compileLit fsC9 idxC9 "hit" "" 30 "g"
    (countOcc "hit") rfl

/-- The `part_001` walk-based search never fails once the pattern has
compiled: every branch returns a result list. -/
theorem walkGrep_isOk (env : WalkServer.WalkEnv)
    (compile : String → Option (String → Nat)) (pattern searchPath : String)
    (limit : Nat) :
    (WalkServer.grepDocuments env compile pattern searchPath limit).isOk =
      (compile pattern).isSome := by
  rcases hc : compile pattern with _ | count
  · simp [WalkServer.grepDocuments, hc, Except.isOk, Except.toBool]
  · simp only [WalkServer.grepDocuments, hc]
    split <;> rfl

/-- Claim C5 (amended): the `grep_docs` tool call is rejected with a
protocol-level error exactly when the pattern argument is absent, is the
empty string (the handler's falsy test `if (!pattern)` conflates the two),
or fails to compile; every nonempty compilable pattern succeeds. -/
theorem callToolHandler_error_iff (env : WalkServer.WalkEnv)
    (compile : String → Option (String → Nat))
    (pattern path : Option String) (limit : Option Nat) :
    (WalkServer.callToolHandler env compile "grep_docs" pattern path limit).isOk
        = false ↔
      pattern = none ∨ pattern = some "" ∨
        ∃ p, pattern = some p ∧ compile p = none := by
  rw [WalkServer.callToolHandler, if_neg (by simp)]
  by_cases hemp : pattern = none ∨ pattern = some ""
  · rw [if_pos hemp]
    simp only [Except.isOk, Except.toBool]
    tauto
  · rw [if_neg hemp]
    push_neg at hemp
    obtain ⟨p, rfl⟩ := Option.ne_none_iff_exists'.mp hemp.1
    have hgo := walkGrep_isOk env compile p (path.getD "") (limit.getD 30)
    show (match WalkServer.grepDocuments env compile p (path.getD "")
        (limit.getD 30) with
      | .ok results => (.ok results : Except String (List SearchResult))
      | .error e => .error ("Grep error: " ++ e)).isOk = false ↔ _
    constructor
    · intro h
      refine Or.inr (Or.inr ⟨p, rfl, ?_⟩)
      rcases hg : WalkServer.grepDocuments env compile p (path.getD "")
          (limit.getD 30) with e | results
      · rw [hg] at hgo
        cases hcp : compile p with
        | none => rfl
        | some c =>
          rw [hcp] at hgo
          simp [Except.isOk, Except.toBool] at hgo
      · rw [hg] at h
        simp [Except.isOk, Except.toBool] at h
    · intro hdis
      rcases hdis with h | h | ⟨q, hq, hcomp⟩
      · exact absurd h (by simp)
      · exact absurd h hemp.2
      · injection hq with h'
        subst h'
        rcases hg : WalkServer.grepDocuments env compile p (path.getD "")
            (limit.getD 30) with e | results
        · rfl
        · rw [hg, hcomp] at hgo
          simp [Except.isOk, Except.toBool] at hgo

/-- Claim C5 witness: with a compile collaborator for which even the empty
pattern compiles, the handler still rejects the empty pattern (the falsy
check), rejects a missing pattern, and succeeds on a nonempty compilable
pattern. -/
theorem callToolHandler_error_iff_witness :
    ((WalkServer.callToolHandler envC5 compileLit1 "grep_docs" (some "") none
        none).isOk = false) ∧
    ((WalkServer.callToolHandler envC5 compileLit1 "grep_docs" none none
        none).isOk = false) ∧
    ((WalkServer.callToolHandler envC5 compileLit1 "grep_docs" (some "hit") none
        none).isOk = false ↔
      (some "hit" = none ∨ some "hit" = some "" ∨
        ∃ p, some "hit" = some p ∧ compileLit1 p = none)) :=
  ⟨(callToolHandler_error_iff envC5 compileLit1 (some "") none none).mpr
      (Or.inr (Or.inl rfl)),
    (callToolHandler_error_iff envC5 compileLit1 none none none).mpr
      (Or.inl rfl),
    callToolHandler_error_iff envC5 compileLit1 (some "hit") none none⟩

theorem buncumentUri_inj {a b : String}
    (h : ("buncument://" ++ a) = "buncument://" ++ b) : a = b := by
  have hd := congrArg String.data h
  rw [String.data_append, String.data_append] at hd
  exact String.ext (List.append_cancel_left hd)

theorem startsWithStr_append (a b : String) : startsWithStr (a ++ b) a = true := by
  rw [startsWithStr]
  exact isPrefixOf_iff_append.mpr ⟨b.data, (String.data_append a b)⟩

theorem eco_uri_shape {env : IndexTs.ServeEnv} {l : List String} {r : Resource}
    (h : r ∈ IndexTs.ecoListResources env l) :
    ∃ f, r.uri = "buncument://ecosystem/" ++ f := by
  induction l with
  | nil => simp [IndexTs.ecoListResources] at h
  | cons f rest ih =>
    rw [IndexTs.ecoListResources] at h
    rcases hfs : env.fs (env.docsDir ++ "/ecosystem/" ++ f ++ ".md") with _ | content
    · rw [hfs] at h
      simp at h
    · rw [hfs] at h
      rcases List.mem_cons.mp h with rfl | hmem
      · exact ⟨f, rfl⟩
      · exact ih hmem

/-- Claim C2 (amended): in `src/index.ts`, a `disabled` page resolves to a
plain-text `[Page disabled: …]` payload and is excluded from `list()`; a
page with `href` set (and not disabled) resolves to a plain-text
`[External link: …]` payload — no local content is served — but its slug
DOES appear in `list()` output. -/
theorem disabled_href_listing (env : IndexTs.ServeEnv) (slug : String)
    (info : PageInfo)
    (hlook : mapGet env.pageMap slug = some info)
    (hnd : (env.pageMap.map Prod.fst).Nodup)
    (h1 : slug ≠ "") (h2 : slug ≠ "guides")
    (h3 : startsWithStr slug "guides/" = false)
    (h4 : startsWithStr slug "ecosystem/" = false)
    (h5 : startsWithStr slug "/" = false) :
    (info.disabled = true →
      IndexTs.handleResourceRequest env slug =
        .ok (.plain ("[Page disabled: " ++ info.title ++ "]")) ∧
      ∀ r ∈ IndexTs.getAllPagesResources env, r.uri ≠ "buncument://" ++ slug) ∧
    (info.disabled = false → optTruthy info.href = true →
      IndexTs.handleResourceRequest env slug =
        .ok (.plain ("[External link: " ++ info.href.getD "" ++ "]")) ∧
      ∃ r ∈ IndexTs.getAllPagesResources env, r.uri = "buncument://" ++ slug) := by
  have hdispatch : IndexTs.handleResourceRequest env slug =
      .ok (IndexTs.handlePagePath env slug) := by
    rw [IndexTs.handleResourceRequest]
    simp only [h5, Bool.false_eq_true, if_false, if_neg h1, if_neg h2, h3, h4]
  constructor
  · intro hdis
    constructor
    · rw [hdispatch, IndexTs.handlePagePath, hlook]
      simp [hdis]
    · intro r hr huri
      rcases List.mem_append.mp hr with hr' | hreco
      · rcases List.mem_append.mp hr' with hrnav | hrg
        · obtain ⟨p, hp, hsome⟩ := List.mem_filterMap.mp hrnav
          by_cases hpd : p.2.disabled
          · rw [if_pos hpd] at hsome
            exact Option.noConfusion hsome
          · rw [if_neg hpd] at hsome
            obtain rfl : _ = r := by injection hsome
            have hps : p.1 = slug := buncumentUri_inj huri
            have : mapGet env.pageMap slug = some p.2 := by
              rw [← hps]
              exact mapGet_eq_some_of_mem_nodup hnd
                (by rw [show (p.1, p.2) = p from rfl]; exact hp)
            rw [hlook] at this
            obtain rfl : info = p.2 := by injection this
            rw [hdis] at hpd
            exact hpd rfl
        · have : r.uri = "buncument://guides" := by
            rcases List.mem_singleton.mp hrg with rfl
            rfl
          rw [this] at huri
          exact h2 (buncumentUri_inj huri).symm
      · obtain ⟨f, hf⟩ := eco_uri_shape hreco
        rw [hf] at huri
        have : slug = "ecosystem/" ++ f := (buncumentUri_inj huri).symm
        rw [this, startsWithStr_append] at h4
        exact Bool.noConfusion h4
  · intro hdis hhref
    constructor
    · rw [hdispatch, IndexTs.handlePagePath, hlook]
      simp [hdis, hhref]
    · refine ⟨{ uri := "buncument://" ++ slug, name := info.title,
                description := composeDescription info,
                mimeType := "text/markdown" },
        ?_, rfl⟩
      apply List.mem_append_left
      apply List.mem_append_left
      apply List.mem_filterMap.mpr
      refine ⟨(slug, info), mem_of_mapGet_eq_some hlook, ?_⟩
      rw [if_neg (by simp [hdis])]

/-- Claim C2 witness: in `envC2` the disabled page `gone` resolves to the
disabled payload and is excluded from the listing, while the `href` page
`old-api` resolves to the external-link payload and is listed. -/
theorem disabled_href_listing_witness :
    (({ title := "Gone", description := "", divider := "", disabled := true,
        href := none } : PageInfo).disabled = true →
      IndexTs.handleResourceRequest envC2 "gone" =
        .ok (.plain ("[Page disabled: " ++ "Gone" ++ "]")) ∧
      ∀ r ∈ IndexTs.getAllPagesResources envC2, r.uri ≠ "buncument://" ++ "gone") ∧
    (({ title := "Gone", description := "", divider := "", disabled := true,
        href := none } : PageInfo).disabled = false →
      optTruthy ({ title := "Gone", description := "", divider := "",
                   disabled := true, href := none } : PageInfo).href = true →
      IndexTs.handleResourceRequest envC2 "gone" =
        .ok (.plain ("[External link: " ++
          (({ title := "Gone", description := "", divider := "",
              disabled := true, href := none } : PageInfo).href.getD "") ++ "]")) ∧
      ∃ r ∈ IndexTs.getAllPagesResources envC2,
        r.uri = "buncument://" ++ "gone") :=
  disabled_href_listing envC2 "gone"
    { title := "Gone", description := "", divider := "", disabled := true,
      href := none }
    (by decide) (by decide) (by decide) (by decide) (by decide) (by decide)
    (by decide)

/-- Claim C2 counterexample: the external (`href`) page `old-api` of `envC2`
appears in the `list()` output of `src/index.ts` — `getAllPagesResources`
skips only `disabled` pages — contradicting "the slug never appears in
`list()` output". -/
theorem href_slug_listed_cex :
    mapGet envC2.pageMap "old-api" =
      some { title := "Old API", description := "", divider := "",
             disabled := false, href := some "https://example.com" } ∧
    ∃ r ∈ IndexTs.getAllPagesResources envC2, r.uri = "buncument://old-api" := by
  refine ⟨by decide, ⟨{ uri := "buncument://old-api", name := "Old API",
                        description := "", mimeType := "text/markdown" },
    by decide, rfl⟩⟩

/-- Claim C6 (amended): during manifest ingestion `buildResourceIndex`
resolves a page's backing file by trying `{slug}.md` first and then
`{slug}/index.md`; a page with neither file is skipped without affecting
the rest of the construction. The index-driven search inherits this via the
stored `filePath`, but the standalone search of `src/index.ts` maps a
manifest slug only to `{slug}.md`, so a slug backed by `{slug}/index.md`
never appears in its results. -/
theorem manifest_file_resolution (env : Unified.BuildEnv) (slug : String)
    (info : PageInfo)
    (_hmem : (slug, info) ∈ env.pageMap)
    (_hnd : (env.pageMap.map Prod.fst).Nodup)
    (_hd : info.disabled = false) (_hh : optTruthy info.href = false) :
    ((env.fs (env.docsDir ++ "/" ++ slug ++ ".md")).isSome = true →
      Unified.resolvePageFile env.docsDir env.fs slug =
        some (env.docsDir ++ "/" ++ slug ++ ".md")) ∧
    ((env.fs (env.docsDir ++ "/" ++ slug ++ ".md")).isSome = false →
      (env.fs (env.docsDir ++ "/" ++ slug ++ "/index.md")).isSome = true →
      Unified.resolvePageFile env.docsDir env.fs slug =
        some (env.docsDir ++ "/" ++ slug ++ "/index.md")) ∧
    (Unified.resolvePageFile env.docsDir env.fs slug = none →
      ∀ v, ("buncument://" ++ slug, v) ∉ Unified.navInsertions env) ∧
    (∀ l₁ l₂, env.pageMap = l₁ ++ l₂ →
      Unified.navInsertions env =
        Unified.navInsertions { env with pageMap := l₁ } ++
          Unified.navInsertions { env with pageMap := l₂ }) ∧
    (∀ (envI : IndexTs.ServeEnv) (count : String → Nat) (sp : String),
      envI.pathExists (envI.docsDir ++ "/" ++ slug ++ ".md") = false →
      ∀ r ∈ IndexTs.grepNavResults envI count sp,
        r.uri ≠ "buncument://" ++ slug) := by
  refine ⟨?_, ?_, ?_, ?_, ?_⟩
  · intro hmd
    rw [Unified.resolvePageFile, if_pos hmd]
  · intro hmd hidx
    rw [Unified.resolvePageFile, if_neg (by simp [hmd]), if_pos hidx]
  · intro hres v hv
    obtain ⟨p, hp, hsome⟩ := List.mem_filterMap.mp hv
    by_cases hskip : p.2.disabled || optTruthy p.2.href
    · rw [if_pos hskip] at hsome
      exact Option.noConfusion hsome
    · rw [if_neg hskip] at hsome
      rcases hr : Unified.resolvePageFile env.docsDir env.fs p.1 with _ | fp
      · rw [hr] at hsome
        exact Option.noConfusion hsome
      · rw [hr] at hsome
        have hpair := Option.some.inj hsome
        have hps : p.1 = slug := buncumentUri_inj (congrArg Prod.fst hpair)
        rw [hps, hres] at hr
        exact Option.noConfusion hr
  · intro l₁ l₂ hpm
    rw [Unified.navInsertions, Unified.navInsertions, Unified.navInsertions]
    simp only [hpm, List.filterMap_append]
  · intro envI count sp hnofile r hr hru
    rw [IndexTs.grepNavResults] at hr
    obtain ⟨s, hs, hsome⟩ := List.mem_filterMap.mp hr
    rcases hlk : mapGet envI.pageMap s with _ | i
    · rw [hlk] at hsome
      exact Option.noConfusion hsome
    · rw [hlk] at hsome
      simp only at hsome
      by_cases hskip : i.disabled || optTruthy i.href
      · rw [if_pos hskip] at hsome
        exact Option.noConfusion hsome
      · rw [if_neg hskip] at hsome
        by_cases hex : envI.pathExists (envI.docsDir ++ "/" ++ s ++ ".md") = true
        · rw [if_neg (by simp [hex])] at hsome
          by_cases hmc : 0 < countMatches envI.fs count
              (envI.docsDir ++ "/" ++ s ++ ".md")
          · rw [if_pos hmc] at hsome
            obtain rfl : _ = r := by injection hsome
            have : s = slug := buncumentUri_inj hru
            rw [this] at hex
            rw [hnofile] at hex
            exact Bool.noConfusion hex
          · rw [if_neg hmc] at hsome
            exact Option.noConfusion hsome
        · rw [if_pos (by simpa using hex)] at hsome
          exact Option.noConfusion hsome

/-- Claim C6 witness: in `envC6W` page `a` resolves to `a.md`, page `b`
(whose `b.md` is absent) resolves to `b/index.md`, and a missing page is
skipped; the legacy search skips any slug whose `{slug}.md` is absent. -/
theorem manifest_file_resolution_witness :
    ((envC6W.fs (envC6W.docsDir ++ "/" ++ "b" ++ ".md")).isSome = true →
      Unified.resolvePageFile envC6W.docsDir envC6W.fs "b" =
        some (envC6W.docsDir ++ "/" ++ "b" ++ ".md")) ∧
    ((envC6W.fs (envC6W.docsDir ++ "/" ++ "b" ++ ".md")).isSome = false →
      (envC6W.fs (envC6W.docsDir ++ "/" ++ "b" ++ "/index.md")).isSome = true →
      Unified.resolvePageFile envC6W.docsDir envC6W.fs "b" =
        some (envC6W.docsDir ++ "/" ++ "b" ++ "/index.md")) ∧
    (Unified.resolvePageFile envC6W.docsDir envC6W.fs "b" = none →
      ∀ v, ("buncument://" ++ "b", v) ∉ Unified.navInsertions envC6W) ∧
    (∀ l₁ l₂, envC6W.pageMap = l₁ ++ l₂ →
      Unified.navInsertions envC6W =
        Unified.navInsertions { envC6W with pageMap := l₁ } ++
          Unified.navInsertions { envC6W with pageMap := l₂ }) ∧
    (∀ (envI : IndexTs.ServeEnv) (count : String → Nat) (sp : String),
      envI.pathExists (envI.docsDir ++ "/" ++ "b" ++ ".md") = false →
      ∀ r ∈ IndexTs.grepNavResults envI count sp,
        r.uri ≠ "buncument://" ++ "b") :=
  manifest_file_resolution envC6W "b"
    { title := "B", description := "", divider := "", disabled := false,
      href := none }
    (by decide) (by decide) rfl rfl

/-- Claim C6 counterexample: in `envC6`/`envC6I` the slug `foo` is backed
only by `foo/index.md`; `buildResourceIndex` indexes it through the
two-step resolution, its content matches the pattern, yet the standalone
`grepDocuments` of `src/index.ts` — which tries only `{slug}.md` — returns
no results: the two-step resolution does not apply to that search. -/
theorem twostep_missing_from_legacy_search_cex :
    mapGet (Unified.buildResourceIndex envC6) "buncument://foo" =
      some { uri := "buncument://foo", name := "Foo", description := "",
             mimeType := "text/markdown", filePath := some "docs/foo/index.md",
             isDirectory := false } ∧
    countOcc "needle" "needle needle" = 2 ∧
    IndexTs.grepDocuments envC6I compileLit1 "needle" "" 30 = .ok [] := by
  refine ⟨by decide, by decide, rfl⟩

/-- Claim C5 counterexample: the empty pattern compiles (in JavaScript,
`new RegExp('', 'g')` succeeds and matches everywhere), yet the handler
rejects the call — `if (!pattern)` treats the supplied empty string as a
missing argument, so "every compilable pattern succeeds" fails at `""`. -/
theorem emptyPattern_rejected_cex :
    compileLit1 "" ≠ none ∧
    WalkServer.callToolHandler envC5 compileLit1 "grep_docs" (some "") none none
      = .error "Pattern parameter is required" := by
  refine ⟨fun h => Option.noConfusion h, rfl⟩

end BunDoc
